import Mathlib

/-!
# PepTrack storage/encryption core — verification development

Shallow embedding of the PepTrack core crate
(`crates/core/src/encryption.rs`, `crates/core/src/backup_encryption.rs`,
`crates/core/src/db.rs`) in Lean 4, together with theorems settling the
specification claims about it.

Machine bytes are modelled as `Nat` values (`< 256` where a claim needs it),
byte strings as `List Nat`.  The ChaCha20-Poly1305 AEAD used by the source
through the `chacha20poly1305` crate is implemented concretely below following
RFC 8439 (the crate is a faithful implementation of that RFC); RFC test
vectors for the ChaCha20 block function and the Poly1305 MAC are checked as
lemmas in the theorem section.  Randomness (nonces, salts) enters the source
through `OsRng`; here the random values are explicit parameters of the
operations that draw them.
-/

namespace PepTrack

/-- Decidable equality of `Except` results (outcomes of fallible source
operations are compared in counterexamples and witnesses). -/
instance {ε α : Type} [DecidableEq ε] [DecidableEq α] :
    DecidableEq (Except ε α) := fun a b =>
  match a, b with
  | .ok x, .ok y =>
    if h : x = y then isTrue (by rw [h])
    else isFalse (fun hc => h (by injection hc))
  | .error x, .error y =>
    if h : x = y then isTrue (by rw [h])
    else isFalse (fun hc => h (by injection hc))
  | .ok _, .error _ => isFalse (fun hc => Except.noConfusion hc)
  | .error _, .ok _ => isFalse (fun hc => Except.noConfusion hc)

/-- Byte strings: each element is one byte (`< 256` where it matters). -/
abbrev Bytes := List Nat

/-! ## ChaCha20 block function (RFC 8439 §2.3), as used by `chacha20poly1305` -/

/-- 32-bit modular addition. -/
def add32 (a b : Nat) : Nat := (a + b) % 4294967296

/-- 32-bit left rotation (input assumed `< 2^32`). -/
def rotl32 (x n : Nat) : Nat :=
  ((x * 2 ^ n) % 4294967296) + (x / 2 ^ (32 - n))

/-- One ChaCha quarter round acting on positions `ia ib ic idd` of the
16-word state. -/
def quarterRound (st : List Nat) (ia ib ic idd : Nat) : List Nat :=
  let a := st.getD ia 0
  let b := st.getD ib 0
  let c := st.getD ic 0
  let d := st.getD idd 0
  let a := add32 a b
  let d := rotl32 (Nat.xor d a) 16
  let c := add32 c d
  let b := rotl32 (Nat.xor b c) 12
  let a := add32 a b
  let d := rotl32 (Nat.xor d a) 8
  let c := add32 c d
  let b := rotl32 (Nat.xor b c) 7
  (((st.set ia a).set ib b).set ic c).set idd d

/-- A ChaCha double round: four column rounds then four diagonal rounds. -/
def doubleRound (st : List Nat) : List Nat :=
  let st := quarterRound st 0 4 8 12
  let st := quarterRound st 1 5 9 13
  let st := quarterRound st 2 6 10 14
  let st := quarterRound st 3 7 11 15
  let st := quarterRound st 0 5 10 15
  let st := quarterRound st 1 6 11 12
  let st := quarterRound st 2 7 8 13
  quarterRound st 3 4 9 14

/-- Iterate `n` double rounds (ChaCha20 uses 10). -/
def chachaRounds : Nat → List Nat → List Nat
  | 0, st => st
  | n + 1, st => chachaRounds n (doubleRound st)

/-- Little-endian 32-bit word from four bytes. -/
def wordLE (b0 b1 b2 b3 : Nat) : Nat :=
  b0 + 256 * b1 + 65536 * b2 + 16777216 * b3

/-- The ChaCha20 initial state: constants, 8 key words, block counter,
3 nonce words (all little-endian). -/
def chachaInit (key : Bytes) (counter : Nat) (nonce : Bytes) : List Nat :=
  [1634760805, 857760878, 2036477234, 1797285236]
    ++ (List.range 8).map (fun i =>
        wordLE (key.getD (4 * i) 0) (key.getD (4 * i + 1) 0)
          (key.getD (4 * i + 2) 0) (key.getD (4 * i + 3) 0))
    ++ [counter % 4294967296]
    ++ (List.range 3).map (fun i =>
        wordLE (nonce.getD (4 * i) 0) (nonce.getD (4 * i + 1) 0)
          (nonce.getD (4 * i + 2) 0) (nonce.getD (4 * i + 3) 0))

/-- Serialize one 32-bit word to four little-endian bytes. -/
def wordBytesLE (w : Nat) : Bytes :=
  [w % 256, w / 256 % 256, w / 65536 % 256, w / 16777216 % 256]

/-- The 64-byte ChaCha20 keystream block for `(key, counter, nonce)`. -/
def chachaBlock (key : Bytes) (counter : Nat) (nonce : Bytes) : Bytes :=
  let s0 := chachaInit key counter nonce
  let s := chachaRounds 10 s0
  ((List.range 16).map (fun i => add32 (s.getD i 0) (s0.getD i 0))).foldr
    (fun w acc => wordBytesLE w ++ acc) []

/-- Byte `i` of the ChaCha20 encryption keystream (blocks start at
counter 1, as in the RFC 8439 AEAD construction used by the crate). -/
def chachaKeystreamByte (key nonce : Bytes) (i : Nat) : Nat :=
  (chachaBlock key (1 + i / 64) nonce).getD (i % 64) 0

/-- The first `n` bytes of the ChaCha20 encryption keystream. -/
def chachaKeystream (key nonce : Bytes) (n : Nat) : Bytes :=
  (List.range n).map (chachaKeystreamByte key nonce)

/-- Pointwise xor of two byte strings (length of the shorter). -/
def xorBytes (a b : Bytes) : Bytes := List.zipWith (· ^^^ ·) a b

/-! ## Poly1305 (RFC 8439 §2.5) -/

/-- Little-endian interpretation of a byte string as a natural number. -/
def leBytesToNat (bs : Bytes) : Nat := bs.foldr (fun b acc => b + 256 * acc) 0

/-- `len` little-endian bytes of `n`. -/
def natToLEBytes (len n : Nat) : Bytes :=
  (List.range len).map (fun i => n / 256 ^ i % 256)

/-- The Poly1305 prime `2^130 - 5`. -/
def polyP : Nat := 1361129467683753853853498429727072845819

/-- Clamp the Poly1305 `r` value. -/
def clampR (r : Nat) : Nat := Nat.land r 0x0ffffffc0ffffffc0ffffffc0fffffff

/-- Poly1305 accumulator loop over 16-byte chunks of `msg`: each chunk is
read little-endian, topped with a `2^(8·len)` bit, added into the
accumulator and multiplied by `r` modulo the prime. -/
def polyBlocks (r : Nat) : Nat → Bytes → Nat
  | acc, [] => acc
  | acc, b0 :: b1 :: b2 :: b3 :: b4 :: b5 :: b6 :: b7
      :: b8 :: b9 :: b10 :: b11 :: b12 :: b13 :: b14 :: b15 :: rest =>
    polyBlocks r
      (((acc + leBytesToNat
          [b0, b1, b2, b3, b4, b5, b6, b7, b8, b9, b10, b11, b12, b13, b14, b15]
          + 256 ^ 16) * r) % polyP) rest
  | acc, chunk =>
    ((acc + leBytesToNat chunk + 256 ^ chunk.length) * r) % polyP

/-- The 16-byte Poly1305 tag of `msg` under the 32-byte one-time key. -/
def poly1305Tag (polyKey : Bytes) (msg : Bytes) : Bytes :=
  let r := clampR (leBytesToNat (polyKey.take 16))
  let s := leBytesToNat ((polyKey.drop 16).take 16)
  natToLEBytes 16 ((polyBlocks r 0 msg + s) % 340282366920938463463374607431768211456)

/-! ## ChaCha20-Poly1305 AEAD (RFC 8439 §2.8), empty associated data,
exactly the construction `chacha20poly1305::ChaCha20Poly1305` applies for
`cipher.encrypt(&nonce, plaintext)` / `cipher.decrypt(&nonce, ciphertext)`. -/

/-- Zero-pad a byte string to a multiple of 16 bytes. -/
def pad16 (bs : Bytes) : Bytes :=
  bs ++ List.replicate ((16 - bs.length % 16) % 16) 0

/-- Eight little-endian length bytes. -/
def le64 (n : Nat) : Bytes := natToLEBytes 8 n

/-- The Poly1305 input for ciphertext `ct` with empty associated data:
`pad16(ct) ++ le64(|aad| = 0) ++ le64(|ct|)`. -/
def macData (ct : Bytes) : Bytes := pad16 ct ++ le64 0 ++ le64 ct.length

/-- The one-time Poly1305 key: first 32 bytes of the counter-0 block. -/
def polyKeyOf (key nonce : Bytes) : Bytes := (chachaBlock key 0 nonce).take 32

/-- AEAD encryption: xor-keystream ciphertext followed by the 16-byte tag. -/
def chachaPolyEncrypt (key nonce pt : Bytes) : Bytes :=
  let ct := xorBytes pt (chachaKeystream key nonce pt.length)
  ct ++ poly1305Tag (polyKeyOf key nonce) (macData ct)

/-- AEAD decryption: reject inputs shorter than the tag, recompute and
compare the tag, then strip the keystream.  Returns `none` on tag
mismatch (the crate's opaque `aead::Error`). -/
def chachaPolyDecrypt (key nonce data : Bytes) : Option Bytes :=
  if data.length < 16 then none
  else
    let ct := data.take (data.length - 16)
    let tag := data.drop (data.length - 16)
    if poly1305Tag (polyKeyOf key nonce) (macData ct) = tag then
      some (xorBytes ct (chachaKeystream key nonce ct.length))
    else none

/-! ## Envelope encryption (`crates/core/src/encryption.rs`) -/

/-- Error outcomes of the envelope-encryption layer.  The source reports
them as `anyhow` messages; each constructor corresponds to one message
site: `"Key material must be at least 32 bytes"`, a provider-specific
failure, `"ciphertext too short"`, `"encryption failed: …"`,
`"decryption failed: …"`. -/
inductive EncError where
  | invalidKeyMaterial
  | keyUnavailable
  | ciphertextTooShort
  | decryptionFailed
deriving DecidableEq

/-- `KeyMaterial`: key bytes held by a provider (`Zeroizing<Vec<u8>>`). -/
structure KeyMaterial where
  bytes : Bytes
deriving DecidableEq

/-- `KeyMaterial::new`: rejects fewer than 32 bytes. -/
def KeyMaterial.new (bs : Bytes) : Except EncError KeyMaterial :=
  if bs.length < 32 then .error .invalidKeyMaterial else .ok ⟨bs⟩

/-- `KeyMaterial::to_key_bytes`: exactly the first 32 bytes. -/
def KeyMaterial.toKeyBytes (km : KeyMaterial) : Bytes := km.bytes.take 32

/-- A key provider, modelled by the outcome of its `key_material()` call
(`StaticKeyProvider` always returns the same `Ok`; `EnvKeyProvider` may
return an error). -/
abbrev KeyProvider := Except EncError KeyMaterial

namespace EnvelopeEncryption

/-- `EnvelopeEncryption::seal`: fetch the key, encrypt under a fresh
12-byte random nonce (here the explicit `nonce` argument, standing for the
`OsRng` draw), return `nonce ++ ciphertext_with_tag`. -/
def «seal» (kp : KeyProvider) (nonce : Bytes) (pt : Bytes) : Except EncError Bytes := do
  let km ← kp
  .ok (nonce ++ chachaPolyEncrypt km.toKeyBytes nonce pt)

/-- `EnvelopeEncryption::open`: reject payloads shorter than 13 bytes,
split off the 12-byte nonce, fetch the key, authenticated-decrypt. -/
def open' (kp : KeyProvider) (payload : Bytes) : Except EncError Bytes :=
  if payload.length < 13 then .error .ciphertextTooShort
  else
    match kp with
    | .error e => .error e
    | .ok km =>
      match chachaPolyDecrypt km.toKeyBytes (payload.take 12) (payload.drop 12) with
      | some pt => .ok pt
      | none => .error .decryptionFailed

end EnvelopeEncryption

/-! ## Base64 (the `base64` crate's `STANDARD` engine: padded encoding,
canonical-padding strict decoding, trailing bits rejected) -/

/-- The standard base64 alphabet. -/
def b64Alphabet : List Char :=
  "ABCDEFGHIJKLMNOPQRSTUVWXYZabcdefghijklmnopqrstuvwxyz0123456789+/".toList

/-- Character for a six-bit value. -/
def sextetChar (n : Nat) : Char := b64Alphabet.getD n 'A'

/-- Six-bit value of an alphabet character (`none` for any other char,
including `'='`). -/
def charSextet (c : Char) : Option Nat := b64Alphabet.indexOf? c

/-- Base64-encode, three input bytes per four output characters, padded. -/
def b64EncodeChars : Bytes → List Char
  | [] => []
  | [b0] => [sextetChar (b0 / 4), sextetChar (b0 % 4 * 16), '=', '=']
  | [b0, b1] =>
      [sextetChar (b0 / 4), sextetChar (b0 % 4 * 16 + b1 / 16),
       sextetChar (b1 % 16 * 4), '=']
  | b0 :: b1 :: b2 :: rest =>
      sextetChar (b0 / 4) :: sextetChar (b0 % 4 * 16 + b1 / 16)
        :: sextetChar (b1 % 16 * 4 + b2 / 64) :: sextetChar (b2 % 64)
        :: b64EncodeChars rest

/-- `BASE64.encode`. -/
def b64Encode (bs : Bytes) : String := String.mk (b64EncodeChars bs)

/-- Strict base64 decoding: groups of four characters, padding only in the
final group, non-canonical trailing bits rejected. -/
def b64DecodeChars : List Char → Option Bytes
  | [] => some []
  | c0 :: c1 :: c2 :: c3 :: rest =>
    match charSextet c0, charSextet c1 with
    | some s0, some s1 =>
      if c2 = '=' then
        if c3 = '=' ∧ rest = [] then
          if s1 % 16 = 0 then some [s0 * 4 + s1 / 16] else none
        else none
      else
        match charSextet c2 with
        | some s2 =>
          if c3 = '=' then
            if rest = [] then
              if s2 % 4 = 0 then some [s0 * 4 + s1 / 16, s1 % 16 * 16 + s2 / 4]
              else none
            else none
          else
            match charSextet c3 with
            | some s3 =>
              (b64DecodeChars rest).map
                (fun tl => (s0 * 4 + s1 / 16) :: (s1 % 16 * 16 + s2 / 4)
                  :: (s2 % 4 * 64 + s3) :: tl)
            | none => none
        | none => none
    | _, _ => none
  | _ => none

/-- `BASE64.decode`. -/
def b64Decode (s : String) : Option Bytes := b64DecodeChars s.data

/-! ## UTF-8 validity (Rust's `String::from_utf8` acceptance predicate) -/

/-- Is `b` a UTF-8 continuation byte? -/
def isCont (b : Nat) : Bool := 128 ≤ b && b ≤ 191

/-- UTF-8 well-formedness of a byte string, the exact byte-pattern table
Rust's `core::str` validator implements. -/
def isValidUtf8 : Bytes → Bool
  | [] => true
  | b :: rest =>
    if b < 128 then isValidUtf8 rest
    else if 194 ≤ b && b ≤ 223 then
      match rest with
      | c1 :: r => isCont c1 && isValidUtf8 r
      | [] => false
    else if b = 224 then
      match rest with
      | c1 :: c2 :: r => (160 ≤ c1 && c1 ≤ 191) && isCont c2 && isValidUtf8 r
      | _ => false
    else if 225 ≤ b && b ≤ 236 then
      match rest with
      | c1 :: c2 :: r => isCont c1 && isCont c2 && isValidUtf8 r
      | _ => false
    else if b = 237 then
      match rest with
      | c1 :: c2 :: r => (128 ≤ c1 && c1 ≤ 159) && isCont c2 && isValidUtf8 r
      | _ => false
    else if 238 ≤ b && b ≤ 239 then
      match rest with
      | c1 :: c2 :: r => isCont c1 && isCont c2 && isValidUtf8 r
      | _ => false
    else if b = 240 then
      match rest with
      | c1 :: c2 :: c3 :: r =>
          (144 ≤ c1 && c1 ≤ 191) && isCont c2 && isCont c3 && isValidUtf8 r
      | _ => false
    else if 241 ≤ b && b ≤ 243 then
      match rest with
      | c1 :: c2 :: c3 :: r => isCont c1 && isCont c2 && isCont c3 && isValidUtf8 r
      | _ => false
    else if b = 244 then
      match rest with
      | c1 :: c2 :: c3 :: r =>
          (128 ≤ c1 && c1 ≤ 143) && isCont c2 && isCont c3 && isValidUtf8 r
      | _ => false
    else false

/-! ## Password-based backup encryption (`crates/core/src/backup_encryption.rs`)

The Argon2id password-hash of the `argon2` crate is an external primitive;
it enters the model as an explicit function argument
`kdf : String → Bytes → Bytes` mapping `(password, salt_bytes)` to the hash
output (32 bytes for the crate's default parameters).  Rust strings are
represented by Lean `String` for passwords and by their UTF-8 byte strings
for the backup document (a Rust `String` is exactly its UTF-8 bytes). -/

/-- Error outcomes of `encrypt_backup`/`decrypt_backup`, one constructor
per error site of the source.  `badNonceLength` models the `panic` of
`Nonce::from_slice` on a decoded nonce that is not 12 bytes. -/
inductive BackupError where
  | versionMismatch
  | notEncrypted
  | decodeSaltFailed
  | decodeNonceFailed
  | decodeCiphertextFailed
  | saltEncodingFailed
  | keyDerivationFailed
  | derivedKeyTooShort
  | badNonceLength
  | authenticationFailed
  | invalidUtf8
deriving DecidableEq

/-- `EncryptedBackup` container (its JSON wire form and the struct are
identified; `serde` derives for this struct round-trip). -/
structure EncryptedBackup where
  version : Nat
  encrypted : Bool
  salt : String
  nonce : String
  ciphertext : String
deriving DecidableEq

/-- `BACKUP_ENCRYPTION_VERSION`. -/
def BACKUP_ENCRYPTION_VERSION : Nat := 1

/-- The key-derivation step shared by `encrypt_backup` and
`decrypt_backup`: re-encode the salt as a `SaltString`
(`password_hash::SaltString::encode_b64` fails when the unpadded base64
exceeds 64 characters), run Argon2 (`hash_password` rejects salts shorter
than its 8-byte minimum), then require at least 32 hash bytes and keep the
first 32. -/
def deriveKey (kdf : String → Bytes → Bytes) (password : String) (salt : Bytes) :
    Except BackupError Bytes :=
  if 64 < (4 * salt.length + 2) / 3 then .error .saltEncodingFailed
  else if salt.length < 8 then .error .keyDerivationFailed
  else if (kdf password salt).length < 32 then .error .derivedKeyTooShort
  else .ok ((kdf password salt).take 32)

/-- `encrypt_backup`: derive a key from the password and the fresh random
16-byte salt (explicit argument standing for the `OsRng` draw, like the
12-byte nonce), AEAD-encrypt the document bytes, and package the container
with base64 fields. -/
def encrypt_backup (kdf : String → Bytes → Bytes) (backupJson : Bytes)
    (password : String) (saltBytes nonceBytes : Bytes) :
    Except BackupError EncryptedBackup :=
  match deriveKey kdf password saltBytes with
  | .error e => .error e
  | .ok key =>
    .ok { version := BACKUP_ENCRYPTION_VERSION, encrypted := true,
          salt := b64Encode saltBytes, nonce := b64Encode nonceBytes,
          ciphertext := b64Encode (chachaPolyEncrypt key nonceBytes backupJson) }

/-- `decrypt_backup` on an already-parsed container (the leading
`serde_json::from_str` step is the struct identification above): version
check, encrypted-flag check, base64 decodes, key derivation, nonce-length
panic of `Nonce::from_slice`, authenticated decryption mapped to the one
generic failure message, and finally `String::from_utf8` validation. -/
def decrypt_backup (kdf : String → Bytes → Bytes) (c : EncryptedBackup)
    (password : String) : Except BackupError Bytes :=
  if c.version ≠ BACKUP_ENCRYPTION_VERSION then .error .versionMismatch
  else if c.encrypted = false then .error .notEncrypted
  else
    match b64Decode c.salt with
    | none => .error .decodeSaltFailed
    | some salt =>
      match b64Decode c.nonce with
      | none => .error .decodeNonceFailed
      | some nonce =>
        match b64Decode c.ciphertext with
        | none => .error .decodeCiphertextFailed
        | some ct =>
          match deriveKey kdf password salt with
          | .error e => .error e
          | .ok key =>
            if nonce.length ≠ 12 then .error .badNonceLength
            else
              match chachaPolyDecrypt key nonce ct with
              | none => .error .authenticationFailed
              | some pt =>
                if isValidUtf8 pt then .ok pt else .error .invalidUtf8

/-! ## Generic JSON values (`serde_json::Value`) and `is_encrypted_backup` -/

/-- A JSON value as `serde_json` parses it. -/
inductive Json where
  | null
  | bool (b : Bool)
  | num (n : Int)
  | str (s : String)
  | arr (xs : List Json)
  | obj (fields : List (String × Json))

/-- `Value::get(key)`: field lookup, objects only. -/
def Json.getField : Json → String → Option Json
  | .obj fields, key => (fields.find? (fun p => p.1 = key)).map (·.2)
  | _, _ => none

/-- `Value::as_bool`. -/
def Json.asBool : Json → Option Bool
  | .bool b => some b
  | _ => none

/-- `is_encrypted_backup`: the input string's `serde_json::from_str::<Value>`
outcome is modelled as `Option Json` (`none` = malformed JSON); read the
top-level `"encrypted"` boolean, defaulting to `false` everywhere else. -/
def is_encrypted_backup (parsed : Option Json) : Bool :=
  match parsed with
  | some v => ((v.getField "encrypted").bind Json.asBool).getD false
  | none => false

/-! ## Domain records (`crates/core/src/models.rs`)

`OffsetDateTime` values are represented by their `to_string` form (the
storage layer only ever moves them whole and stringifies them for index
columns).  `f32` values are represented by their 32-bit pattern wrapped in
`F32`; no claim computes with them. -/

/-- Opaque stand-in for an `f32` value (its bit pattern). -/
structure F32 where
  bits : Nat
deriving DecidableEq

/-- `PeptideProtocol`. -/
structure PeptideProtocol where
  id : String
  name : String
  peptide_name : String
  notes : Option String
  current_vial_status : Option String
  target_concentration_mg_ml : Option F32
  created_at : String
  updated_at : String
  is_favorite : Bool
deriving DecidableEq

/-- `AlertType`. -/
inductive AlertType where
  | lowStock | expiringSoon | expired | priceIncrease | priceDecrease | outOfStock
deriving DecidableEq

/-- `AlertSeverity`. -/
inductive AlertSeverity where
  | info | warning | critical
deriving DecidableEq

/-- `Alert`. -/
structure Alert where
  id : String
  alert_type : AlertType
  severity : AlertSeverity
  title : String
  message : String
  related_id : Option String
  related_type : Option String
  is_read : Bool
  is_dismissed : Bool
  created_at : String
deriving DecidableEq

/-! ### Record serialization

The source serializes records with `serde_json::to_vec` and reads them back
with `serde_json::from_slice`; the claims depend only on that pair being
mutually inverse, so the byte format here is a compact executable encoding
with the same inverse property (field-by-field, with length-prefixed
strings), not JSON text. -/

/-- Encode a string: length prefix then code points. -/
def encStr (s : String) : Bytes := s.data.length :: s.data.map Char.toNat

/-- Decode a string: read the length prefix, take that many code points. -/
def readStr : Bytes → Option (String × Bytes)
  | [] => none
  | n :: rest =>
    if rest.length < n then none
    else some (String.mk ((rest.take n).map Char.ofNat), rest.drop n)

/-- Encode a boolean. -/
def encBool (b : Bool) : Bytes := [if b then 1 else 0]

/-- Decode a boolean. -/
def readBool : Bytes → Option (Bool × Bytes)
  | 0 :: r => some (false, r)
  | 1 :: r => some (true, r)
  | _ => none

/-- Encode an optional value. -/
def encOpt {α : Type} (enc : α → Bytes) : Option α → Bytes
  | none => [0]
  | some x => 1 :: enc x

/-- Decode an optional value. -/
def readOpt {α : Type} (rd : Bytes → Option (α × Bytes)) :
    Bytes → Option (Option α × Bytes)
  | 0 :: r => some (none, r)
  | 1 :: r => (rd r).map (fun p => (some p.1, p.2))
  | _ => none

/-- Encode an `f32` pattern. -/
def encF32 (v : F32) : Bytes := [v.bits]

/-- Decode an `f32` pattern. -/
def readF32 : Bytes → Option (F32 × Bytes)
  | b :: r => some (⟨b⟩, r)
  | [] => none

/-- Encode an `AlertType`. -/
def encAlertType (t : AlertType) : Bytes :=
  [match t with
   | .lowStock => 0 | .expiringSoon => 1 | .expired => 2
   | .priceIncrease => 3 | .priceDecrease => 4 | .outOfStock => 5]

/-- Decode an `AlertType`. -/
def readAlertType : Bytes → Option (AlertType × Bytes)
  | 0 :: r => some (.lowStock, r)
  | 1 :: r => some (.expiringSoon, r)
  | 2 :: r => some (.expired, r)
  | 3 :: r => some (.priceIncrease, r)
  | 4 :: r => some (.priceDecrease, r)
  | 5 :: r => some (.outOfStock, r)
  | _ => none

/-- Encode an `AlertSeverity`. -/
def encAlertSeverity (s : AlertSeverity) : Bytes :=
  [match s with | .info => 0 | .warning => 1 | .critical => 2]

/-- Decode an `AlertSeverity`. -/
def readAlertSeverity : Bytes → Option (AlertSeverity × Bytes)
  | 0 :: r => some (.info, r)
  | 1 :: r => some (.warning, r)
  | 2 :: r => some (.critical, r)
  | _ => none

/-- `serde_json::to_vec(protocol)`. -/
def serializeProtocol (p : PeptideProtocol) : Bytes :=
  encStr p.id ++ encStr p.name ++ encStr p.peptide_name
    ++ encOpt encStr p.notes ++ encOpt encStr p.current_vial_status
    ++ encOpt encF32 p.target_concentration_mg_ml
    ++ encStr p.created_at ++ encStr p.updated_at ++ encBool p.is_favorite

/-- `serde_json::from_slice::<PeptideProtocol>`; requires the whole input
to be consumed. -/
def deserializeProtocol (bs : Bytes) : Option PeptideProtocol := do
  let (id, r) ← readStr bs
  let (name, r) ← readStr r
  let (peptide_name, r) ← readStr r
  let (notes, r) ← readOpt readStr r
  let (cvs, r) ← readOpt readStr r
  let (conc, r) ← readOpt readF32 r
  let (created_at, r) ← readStr r
  let (updated_at, r) ← readStr r
  let (fav, r) ← readBool r
  if r = [] then
    some { id := id, name := name, peptide_name := peptide_name,
           notes := notes, current_vial_status := cvs,
           target_concentration_mg_ml := conc, created_at := created_at,
           updated_at := updated_at, is_favorite := fav }
  else none

/-- `serde_json::to_vec(alert)`. -/
def serializeAlert (a : Alert) : Bytes :=
  encStr a.id ++ encAlertType a.alert_type ++ encAlertSeverity a.severity
    ++ encStr a.title ++ encStr a.message ++ encOpt encStr a.related_id
    ++ encOpt encStr a.related_type ++ encBool a.is_read
    ++ encBool a.is_dismissed ++ encStr a.created_at

/-- `serde_json::from_slice::<Alert>`. -/
def deserializeAlert (bs : Bytes) : Option Alert := do
  let (id, r) ← readStr bs
  let (ty, r) ← readAlertType r
  let (sev, r) ← readAlertSeverity r
  let (title, r) ← readStr r
  let (message, r) ← readStr r
  let (rid, r) ← readOpt readStr r
  let (rty, r) ← readOpt readStr r
  let (isRead, r) ← readBool r
  let (isDismissed, r) ← readBool r
  let (created_at, r) ← readStr r
  if r = [] then
    some { id := id, alert_type := ty, severity := sev, title := title,
           message := message, related_id := rid, related_type := rty,
           is_read := isRead, is_dismissed := isDismissed,
           created_at := created_at }
  else none

/-! ## On-disk rows and database state (`crates/core/src/db.rs`)

One structure per table, with exactly the columns of the `CREATE TABLE`
statements in `StorageManager::initialize`: plaintext index columns plus
the opaque encrypted `payload` blob.  Tables are row lists in insertion
order. -/

/-- A `protocols` row. -/
structure ProtocolRow where
  id : String
  name : String
  payload : Bytes
  updated_at : String
  is_favorite : Bool
deriving DecidableEq

/-- A `dose_logs` row. -/
structure DoseLogRow where
  id : String
  protocol_id : String
  payload : Bytes
  logged_at : String
deriving DecidableEq

/-- A `literature_cache` row. -/
structure LiteratureRow where
  id : String
  source : String
  payload : Bytes
  indexed_at : String
deriving DecidableEq

/-- A `suppliers` row. -/
structure SupplierRow where
  id : String
  name : String
  payload : Bytes
  updated_at : String
deriving DecidableEq

/-- An `inventory` row (`supplier_id` is nullable, `ON DELETE SET NULL`). -/
structure InventoryRow where
  id : String
  protocol_id : String
  supplier_id : Option String
  payload : Bytes
  updated_at : String
deriving DecidableEq

/-- A `price_history` row. -/
structure PriceHistoryRow where
  id : String
  supplier_id : String
  peptide_name : String
  payload : Bytes
  recorded_at : String
deriving DecidableEq

/-- An `alerts` row (`alert_type`/`severity` are stored stringified). -/
structure AlertRow where
  id : String
  alert_type : String
  severity : String
  payload : Bytes
  is_read : Bool
  is_dismissed : Bool
  created_at : String
deriving DecidableEq

/-- A `summary_history` row. -/
structure SummaryRow where
  id : String
  title : String
  payload : Bytes
  created_at : String
deriving DecidableEq

/-- A `body_metrics` row. -/
structure BodyMetricRow where
  id : String
  date : String
  payload : Bytes
  created_at : String
  updated_at : String
deriving DecidableEq

/-- The whole database contents. -/
structure Db where
  protocols : List ProtocolRow
  dose_logs : List DoseLogRow
  literature_cache : List LiteratureRow
  suppliers : List SupplierRow
  inventory : List InventoryRow
  price_history : List PriceHistoryRow
  alerts : List AlertRow
  summary_history : List SummaryRow
  body_metrics : List BodyMetricRow
deriving DecidableEq

/-- A freshly initialized empty database. -/
def emptyDb : Db :=
  { protocols := [], dose_logs := [], literature_cache := [], suppliers := [],
    inventory := [], price_history := [], alerts := [], summary_history := [],
    body_metrics := [] }

/-- Storage-operation errors: an envelope-encryption failure bubbled up, a
`DELETE` that matched no row where the source demands one
(`"Protocol not found"`), or a SQL uniqueness violation on plain `INSERT`. -/
inductive DbError where
  | enc (e : EncError)
  | notFound
  | constraintViolation
deriving DecidableEq

/-- `serde_json::to_string(&alert.alert_type)` (the stringified enum stored
in the plaintext `alert_type` column). -/
def alertTypeStr (t : AlertType) : String :=
  match t with
  | .lowStock => "low_stock" | .expiringSoon => "expiring_soon"
  | .expired => "expired" | .priceIncrease => "price_increase"
  | .priceDecrease => "price_decrease" | .outOfStock => "out_of_stock"

/-- `serde_json::to_string(&alert.severity)`. -/
def alertSeverityStr (s : AlertSeverity) : String :=
  match s with
  | .info => "info" | .warning => "warning" | .critical => "critical"

namespace StorageManager

/-- `INSERT … ON CONFLICT(id) DO UPDATE` over the `protocols` table:
replace the row with a matching id in place, otherwise append. -/
def upsertProtocolRow (rows : List ProtocolRow) (r : ProtocolRow) :
    List ProtocolRow :=
  if rows.any (fun q => q.id = r.id) then
    rows.map (fun q => if q.id = r.id then r else q)
  else rows ++ [r]

/-- `StorageManager::upsert_protocol`: serialize, seal (the fresh random
nonce is the explicit `nonce` argument), write the ciphertext together
with the duplicated plaintext index columns in one statement. -/
def upsert_protocol (kp : KeyProvider) (nonce : Bytes) (db : Db)
    (p : PeptideProtocol) : Except DbError Db :=
  match EnvelopeEncryption.seal kp nonce (serializeProtocol p) with
  | .error e => .error (.enc e)
  | .ok sealed =>
    .ok { db with
          protocols := upsertProtocolRow db.protocols
            { id := p.id, name := p.name, payload := sealed,
              updated_at := p.updated_at, is_favorite := p.is_favorite } }

/-- `StorageManager::create_alert`: plain `INSERT` (no conflict clause), so
an existing id is a uniqueness violation; columns `alert_type`, `severity`,
`is_read`, `is_dismissed`, `created_at` are duplicated out of the record. -/
def create_alert (kp : KeyProvider) (nonce : Bytes) (db : Db) (a : Alert) :
    Except DbError Db :=
  match EnvelopeEncryption.seal kp nonce (serializeAlert a) with
  | .error e => .error (.enc e)
  | .ok sealed =>
    if db.alerts.any (fun q => q.id = a.id) then .error .constraintViolation
    else
      .ok { db with
            alerts := db.alerts ++
              [{ id := a.id, alert_type := alertTypeStr a.alert_type,
                 severity := alertSeverityStr a.severity, payload := sealed,
                 is_read := a.is_read, is_dismissed := a.is_dismissed,
                 created_at := a.created_at }] }

/-- `StorageManager::mark_alert_read`:
`UPDATE alerts SET is_read = 1 WHERE id = ?1` — the flag column only, the
`payload` blob is left untouched. -/
def mark_alert_read (db : Db) (alertId : String) : Db :=
  { db with
    alerts := db.alerts.map (fun r =>
      if r.id = alertId then { r with is_read := true } else r) }

/-- `StorageManager::dismiss_alert`:
`UPDATE alerts SET is_dismissed = 1 WHERE id = ?1`. -/
def dismiss_alert (db : Db) (alertId : String) : Db :=
  { db with
    alerts := db.alerts.map (fun r =>
      if r.id = alertId then { r with is_dismissed := true } else r) }

/-- Delete the `protocols` rows with the given id, firing the
`ON DELETE CASCADE` actions on `dose_logs` and `inventory` when (and only
when) a parent row was actually removed; returns the new state and the
number of `protocols` rows deleted (the statement's affected-row count). -/
def deleteProtocolRows (db : Db) (pid : String) : Db × Nat :=
  if (db.protocols.filter (fun r => r.id = pid)).length = 0 then (db, 0)
  else
    ({ db with
       protocols := db.protocols.filter (fun r => ¬ r.id = pid),
       dose_logs := db.dose_logs.filter (fun d => ¬ d.protocol_id = pid),
       inventory := db.inventory.filter (fun i => ¬ i.protocol_id = pid) },
     (db.protocols.filter (fun r => r.id = pid)).length)

/-- `StorageManager::delete_protocol`: error (`"Protocol not found"`) when
the `DELETE` affected zero rows. -/
def delete_protocol (db : Db) (pid : String) : Except DbError Db :=
  let (db', affected) := deleteProtocolRows db pid
  if affected = 0 then .error .notFound else .ok db'

/-- `StorageManager::delete_dose_log`: a no-match `DELETE` is still `Ok`. -/
def delete_dose_log (db : Db) (logId : String) : Except DbError Db :=
  .ok { db with dose_logs := db.dose_logs.filter (fun d => ¬ d.id = logId) }

/-- `StorageManager::delete_supplier`: plain `DELETE`; a removed supplier
cascades its `price_history` and nullifies `inventory.supplier_id`. -/
def delete_supplier (db : Db) (sid : String) : Except DbError Db :=
  if (db.suppliers.filter (fun s => s.id = sid)).length = 0 then .ok db
  else
    .ok { db with
          suppliers := db.suppliers.filter (fun s => ¬ s.id = sid),
          price_history := db.price_history.filter (fun p => ¬ p.supplier_id = sid),
          inventory := db.inventory.map (fun i =>
            if i.supplier_id = some sid then { i with supplier_id := none } else i) }

/-- `StorageManager::delete_inventory_item`. -/
def delete_inventory_item (db : Db) (itemId : String) : Except DbError Db :=
  .ok { db with inventory := db.inventory.filter (fun i => ¬ i.id = itemId) }

/-- `StorageManager::delete_body_metric`. -/
def delete_body_metric (db : Db) (metricId : String) : Except DbError Db :=
  .ok { db with body_metrics := db.body_metrics.filter (fun m => ¬ m.id = metricId) }

/-- `StorageManager::delete_summary`. -/
def delete_summary (db : Db) (summaryId : String) : Except DbError Db :=
  .ok { db with summary_history := db.summary_history.filter (fun s => ¬ s.id = summaryId) }

/-- The statement loop of `bulk_delete_protocols`, inside the one
transaction: one `DELETE … WHERE id = ?1` per listed id, summing
affected-row counts. -/
def bulkDeleteProtocolsGo (db : Db) : List String → Db × Nat
  | [] => (db, 0)
  | pid :: rest =>
    let (db', hits) := deleteProtocolRows db pid
    let (dbf, n) := bulkDeleteProtocolsGo db' rest
    (dbf, hits + n)

/-- `StorageManager::bulk_delete_protocols`: short-circuit on an empty id
list, otherwise run the statement loop in a single committed transaction
and return the total count actually deleted. -/
def bulk_delete_protocols (db : Db) (ids : List String) :
    Except DbError (Db × Nat) :=
  if ids.isEmpty then .ok (db, 0) else .ok (bulkDeleteProtocolsGo db ids)

/-- The statement loop of `bulk_delete_doses`. -/
def bulkDeleteDosesGo (db : Db) : List String → Db × Nat
  | [] => (db, 0)
  | did :: rest =>
    let hits := (db.dose_logs.filter (fun d => d.id = did)).length
    let db' := { db with dose_logs := db.dose_logs.filter (fun d => ¬ d.id = did) }
    let (dbf, n) := bulkDeleteDosesGo db' rest
    (dbf, hits + n)

/-- `StorageManager::bulk_delete_doses`. -/
def bulk_delete_doses (db : Db) (ids : List String) :
    Except DbError (Db × Nat) :=
  if ids.isEmpty then .ok (db, 0) else .ok (bulkDeleteDosesGo db ids)

/-- The statement loop of `bulk_delete_body_metrics`. -/
def bulkDeleteBodyMetricsGo (db : Db) : List String → Db × Nat
  | [] => (db, 0)
  | mid :: rest =>
    let hits := (db.body_metrics.filter (fun m => m.id = mid)).length
    let db' := { db with body_metrics := db.body_metrics.filter (fun m => ¬ m.id = mid) }
    let (dbf, n) := bulkDeleteBodyMetricsGo db' rest
    (dbf, hits + n)

/-- `StorageManager::bulk_delete_body_metrics`. -/
def bulk_delete_body_metrics (db : Db) (ids : List String) :
    Except DbError (Db × Nat) :=
  if ids.isEmpty then .ok (db, 0) else .ok (bulkDeleteBodyMetricsGo db ids)

/-- ASCII uppercasing (`str::to_uppercase`; the matched mode keywords are
all ASCII). -/
def asciiUppercase (s : String) : String := String.mk (s.data.map Char.toUpper)

/-- The mode-selection `match` of `checkpoint_wal`: unrecognized modes are
logged and demoted to `PASSIVE`. -/
def chooseCheckpointMode (mode : String) : String :=
  match asciiUppercase mode with
  | "PASSIVE" => "PASSIVE"
  | "FULL" => "FULL"
  | "RESTART" => "RESTART"
  | "TRUNCATE" => "TRUNCATE"
  | _ => "PASSIVE"

/-- `StorageManager::checkpoint_wal`: always runs
`PRAGMA wal_checkpoint(<chosen mode>)` and returns `Ok`; the value carried
here is the mode actually executed. -/
def checkpoint_wal (mode : String) : Except DbError String :=
  .ok (chooseCheckpointMode mode)

end StorageManager

/-! ## Schema lifecycle (`open_connection` pragmas + `initialize` +
`run_migrations`) -/

/-- The schema-relevant state of the database file: its tables with their
column lists, its named indexes, and the two stamped pragmas. -/
structure SchemaState where
  tables : List (String × List String)
  indexes : List String
  user_version : Nat
  application_id : Nat
deriving DecidableEq

/-- `PEPTRACK_APP_ID` (`0x50657054`). -/
def PEPTRACK_APP_ID : Nat := 1348497492

/-- `SCHEMA_VERSION`. -/
def SCHEMA_VERSION : Nat := 2

/-- Does a table of this name exist? -/
def hasTable (s : SchemaState) (name : String) : Bool :=
  s.tables.any (fun t => t.1 = name)

/-- Does this table have this column
(the `pragma_table_info` existence query of `run_migrations`)? -/
def hasColumn (s : SchemaState) (table col : String) : Bool :=
  s.tables.any (fun t => t.1 = table ∧ col ∈ t.2)

/-- `CREATE TABLE IF NOT EXISTS`. -/
def createTableIfNotExists (s : SchemaState) (name : String)
    (cols : List String) : SchemaState :=
  if hasTable s name then s else { s with tables := s.tables ++ [(name, cols)] }

/-- `CREATE INDEX IF NOT EXISTS`. -/
def createIndexIfNotExists (s : SchemaState) (name : String) : SchemaState :=
  if s.indexes.any (fun i => i = name) then s
  else { s with indexes := s.indexes ++ [name] }

/-- `ALTER TABLE <table> ADD COLUMN <col> …`. -/
def addColumn (s : SchemaState) (table col : String) : SchemaState :=
  { s with tables := s.tables.map (fun t =>
      if t.1 = table then (t.1, t.2 ++ [col]) else t) }

/-- The pragma block of `open_connection`: every connection stamps
`application_id` and `user_version` (the crash-safety pragmas are
per-connection settings, not file state). -/
def openConnectionPragmas (s : SchemaState) : SchemaState :=
  { s with user_version := SCHEMA_VERSION, application_id := PEPTRACK_APP_ID }

/-- The table definitions of the `initialize` batch, in statement order. -/
def tableDefs : List (String × List String) :=
  [("protocols", ["id", "name", "payload", "updated_at", "is_favorite"]),
   ("dose_logs", ["id", "protocol_id", "payload", "logged_at"]),
   ("literature_cache", ["id", "source", "payload", "indexed_at"]),
   ("suppliers", ["id", "name", "payload", "updated_at"]),
   ("inventory", ["id", "protocol_id", "supplier_id", "payload", "updated_at"]),
   ("price_history", ["id", "supplier_id", "peptide_name", "payload", "recorded_at"]),
   ("alerts", ["id", "alert_type", "severity", "payload", "is_read", "is_dismissed", "created_at"]),
   ("summary_history", ["id", "title", "payload", "created_at"]),
   ("body_metrics", ["id", "date", "payload", "created_at", "updated_at"])]

/-- The index definitions of the `initialize` batch. -/
def indexDefs : List String :=
  ["idx_price_history_supplier_peptide", "idx_protocols_favorite",
   "idx_alerts_not_dismissed", "idx_summary_history_created",
   "idx_body_metrics_date"]

/-- The `CREATE TABLE IF NOT EXISTS` / `CREATE INDEX IF NOT EXISTS`
batch of `StorageManager::initialize`. -/
def createSchemaObjects (s : SchemaState) : SchemaState :=
  indexDefs.foldl createIndexIfNotExists
    (tableDefs.foldl (fun acc t => createTableIfNotExists acc t.1 t.2) s)

/-- `StorageManager::run_migrations`: add `protocols.is_favorite` only
when the `pragma_table_info` check says it is missing. -/
def run_migrations (s : SchemaState) : SchemaState :=
  if hasColumn s "protocols" "is_favorite" then s
  else addColumn s "protocols" "is_favorite"

/-- `StorageManager::initialize`: open a connection (stamping the
pragmas), create all missing tables and indexes, then run the ordered
migrations. -/
def initializeSchema (s : SchemaState) : SchemaState :=
  run_migrations (createSchemaObjects (openConnectionPragmas s))

/-! ## Concrete inputs for counterexamples and witnesses -/

/-- A 32-byte static key (`StaticKeyProvider::new(vec![7u8; 32])`). -/
def km0 : KeyMaterial := ⟨List.replicate 32 7⟩

/-- A key provider that returns `km0`. -/
def kp0 : KeyProvider := .ok km0

/-- A fixed 12-byte nonce draw. -/
def nonce0 : Bytes := List.replicate 12 0

/-- A fixed 16-byte salt draw. -/
def salt0 : Bytes := List.replicate 16 0

/-- A concrete KDF instance (stands for Argon2id at these inputs): 32
bytes, with the last byte separating the two witness passwords. -/
def kdf0 : String → Bytes → Bytes :=
  fun pw _ => List.replicate 31 7 ++ [if pw = "a" then 1 else 2]

/-- A hand-crafted encrypted-backup container whose ciphertext decrypts
(under `kdf0`/any password, tag valid) to the single byte `0xFF`, which is
not valid UTF-8. -/
def containerFF : EncryptedBackup :=
  { version := 1, encrypted := true,
    salt := b64Encode salt0, nonce := b64Encode nonce0,
    ciphertext := b64Encode (chachaPolyEncrypt (kdf0 "pw" salt0) nonce0 [255]) }

/-- A container stamped with an unknown format version. -/
def containerV2 : EncryptedBackup :=
  { version := 2, encrypted := true, salt := "", nonce := "", ciphertext := "" }

/-- An unread alert as `Alert::new` builds it. -/
def alert0 : Alert :=
  { id := "a1", alert_type := .lowStock, severity := .warning,
    title := "t", message := "m",
    related_id := none, related_type := none,
    is_read := false, is_dismissed := false, created_at := "t0" }

/-- The database after `create_alert(alert0)` on an empty database. -/
def dbWithAlert : Db :=
  match StorageManager.create_alert kp0 nonce0 emptyDb alert0 with
  | .ok db => db
  | .error _ => emptyDb

/-! # Theorems -/

/-! ## RFC 8439 sanity checks for the AEAD model -/

set_option maxRecDepth 4000

/-- The ChaCha20 block-function test vector of RFC 8439 §2.3.2. -/
theorem chachaBlock_rfc8439_vector :
    chachaBlock (List.range 32) 1 [0, 0, 0, 9, 0, 0, 0, 74, 0, 0, 0, 0] =
    [16, 241, 231, 228, 209, 59, 89, 21, 80, 15, 221, 31, 163, 32, 113, 196,
     199, 209, 244, 199, 51, 192, 104, 3, 4, 34, 170, 154, 195, 212, 108, 78,
     210, 130, 100, 70, 7, 159, 170, 9, 20, 194, 215, 5, 217, 139, 2, 162,
     181, 18, 156, 209, 222, 22, 78, 185, 203, 208, 131, 232, 162, 80, 60, 78] := by
  decide

/-- The Poly1305 test vector of RFC 8439 §2.5.2. -/
theorem poly1305_rfc8439_vector :
    poly1305Tag
      [133, 214, 190, 120, 87, 85, 109, 51, 127, 68, 82, 254, 66, 213, 6, 168,
       1, 3, 128, 138, 251, 13, 178, 253, 74, 191, 246, 175, 65, 73, 245, 27]
      ("Cryptographic Forum Research Group".toList.map Char.toNat) =
    [168, 6, 29, 193, 48, 81, 54, 198, 194, 43, 139, 175, 12, 1, 39, 169] := by
  decide

/-! ## AEAD round-trip lemmas -/

theorem length_chachaKeystream (key nonce : Bytes) (n : Nat) :
    (chachaKeystream key nonce n).length = n := by
  simp [chachaKeystream]

theorem length_xorBytes (a b : Bytes) :
    (xorBytes a b).length = min a.length b.length := by
  simp [xorBytes]

theorem xorBytes_cancel :
    ∀ (pt ks : Bytes), ks.length = pt.length →
      xorBytes (xorBytes pt ks) ks = pt := by
  intro pt
  induction pt with
  | nil => intro ks _; simp [xorBytes]
  | cons a pt ih =>
    intro ks h
    cases ks with
    | nil => simp at h
    | cons b ks =>
      simp only [xorBytes, List.zipWith_cons_cons]
      have hx : (a ^^^ b) ^^^ b = a := by
        rw [Nat.xor_assoc, Nat.xor_self, Nat.xor_zero]
      simp only [List.length_cons] at h
      rw [hx]
      exact congrArg (a :: ·) (ih ks (by omega))

theorem length_natToLEBytes (len n : Nat) : (natToLEBytes len n).length = len := by
  simp [natToLEBytes]

theorem length_poly1305Tag (k msg : Bytes) : (poly1305Tag k msg).length = 16 := by
  simp [poly1305Tag, length_natToLEBytes]

theorem length_chachaPolyEncrypt (key nonce pt : Bytes) :
    (chachaPolyEncrypt key nonce pt).length = pt.length + 16 := by
  simp [chachaPolyEncrypt, length_poly1305Tag, length_xorBytes,
    length_chachaKeystream]

/-- Authenticated decryption inverts authenticated encryption under the
same key and nonce. -/
theorem chachaPoly_roundtrip (key nonce pt : Bytes) :
    chachaPolyDecrypt key nonce (chachaPolyEncrypt key nonce pt) = some pt := by
  have hks : (chachaKeystream key nonce pt.length).length = pt.length :=
    length_chachaKeystream key nonce pt.length
  have hctlen : (xorBytes pt (chachaKeystream key nonce pt.length)).length
      = pt.length := by
    rw [length_xorBytes, hks, Nat.min_self]
  unfold chachaPolyDecrypt chachaPolyEncrypt
  simp only [List.length_append, hctlen, length_poly1305Tag]
  rw [if_neg (by omega)]
  have e1 : pt.length + 16 - 16
      = (xorBytes pt (chachaKeystream key nonce pt.length)).length := by omega
  rw [e1, List.take_left, List.drop_left, if_pos rfl, hctlen]
  exact congrArg some (xorBytes_cancel pt _ hks)

/-- Reduction of `open` on a successful provider past the length guard. -/
theorem open_ok_reduce (km : KeyMaterial) (payload : Bytes)
    (h : ¬ payload.length < 13) :
    EnvelopeEncryption.open' (.ok km) payload =
      match chachaPolyDecrypt km.toKeyBytes (payload.take 12) (payload.drop 12) with
      | some pt => .ok pt
      | none => .error .decryptionFailed := by
  unfold EnvelopeEncryption.open'
  rw [if_neg h]

/-- Opening a sealed payload under the same key material recovers the
plaintext (shared helper behind C1 and the storage-layer results). -/
theorem open_of_seal (km nonce p : Bytes) (hn : nonce.length = 12) :
    EnvelopeEncryption.open' (.ok ⟨km⟩)
      (nonce ++ chachaPolyEncrypt (KeyMaterial.toKeyBytes ⟨km⟩) nonce p)
      = .ok p := by
  have hlen : (nonce ++ chachaPolyEncrypt (KeyMaterial.toKeyBytes ⟨km⟩) nonce p).length
      = 12 + (p.length + 16) := by
    rw [List.length_append, hn, length_chachaPolyEncrypt]
  rw [open_ok_reduce _ _ (by omega)]
  rw [List.take_left' hn, List.drop_left' hn, chachaPoly_roundtrip]

/-! ## Claim C1 — envelope round-trip -/

/-- C1: for every byte string `p` (empty and arbitrarily large included),
sealing and then opening on the same `EnvelopeEncryption` instance, whose
key provider supplies at least 32 bytes of key material, succeeds and
returns exactly `p`.  The 12-byte nonce drawn from `OsRng` inside `seal`
is the explicit `nonce` argument. -/
theorem envelope_round_trip (km nonce p : Bytes)
    (hk : 32 ≤ km.length) (hn : nonce.length = 12) :
    (EnvelopeEncryption.seal (.ok ⟨km⟩) nonce p).bind
      (EnvelopeEncryption.open' (.ok ⟨km⟩)) = .ok p := by
  have _ := hk
  show EnvelopeEncryption.open' (.ok ⟨km⟩)
      (nonce ++ chachaPolyEncrypt (KeyMaterial.toKeyBytes ⟨km⟩) nonce p) = .ok p
  exact open_of_seal km nonce p hn

/-- Witness for C1 at a concrete key, nonce and plaintext. -/
theorem envelope_round_trip_witness :
    32 ≤ (List.replicate 32 7 : Bytes).length ∧
    (EnvelopeEncryption.seal (.ok ⟨List.replicate 32 7⟩) (List.replicate 12 0) [4, 2]).bind
      (EnvelopeEncryption.open' (.ok ⟨List.replicate 32 7⟩)) = .ok [4, 2] :=
  ⟨by decide,
   envelope_round_trip (List.replicate 32 7) (List.replicate 12 0) [4, 2]
     (by decide) (by decide)⟩

/-! ## Claim C5 — `open` length threshold -/

/-- C5 counterexample: a 20-byte payload is shorter than the claimed
28-byte (nonce + tag) minimum, yet `open` reports the authentication
failure (`"decryption failed"`), not the corrupt/too-short error — the
source's length guard is `payload.len() < 13`, not `< 28`. -/
theorem open_below_28_not_corrupt_counterexample :
    EnvelopeEncryption.open' kp0 (List.replicate 20 0) = .error .decryptionFailed ∧
    EnvelopeEncryption.open' kp0 (List.replicate 20 0) ≠ .error .ciphertextTooShort := by
  exact ⟨by decide, by decide⟩

/-- C5 (amended): the corrupt/too-short error is produced exactly below
the source's 13-byte threshold, before the key provider is even consulted;
payloads of length 13–27 pass the length guard and fail authentication
instead (their ciphertext part is shorter than the 16-byte tag). -/
theorem open_too_short_threshold (kp : KeyProvider) (payload : Bytes) :
    (payload.length < 13 →
      EnvelopeEncryption.open' kp payload = .error .ciphertextTooShort)
    ∧ (∀ km, kp = .ok km → 13 ≤ payload.length → payload.length < 28 →
      EnvelopeEncryption.open' kp payload = .error .decryptionFailed) := by
  constructor
  · intro h
    unfold EnvelopeEncryption.open'
    rw [if_pos h]
  · intro km hkp h13 h28
    subst hkp
    rw [open_ok_reduce _ _ (by omega)]
    have hdrop : (payload.drop 12).length < 16 := by
      rw [List.length_drop]; omega
    unfold chachaPolyDecrypt
    rw [if_pos hdrop]

/-- Witness for C5 (amended), covering both regimes: the empty payload is
rejected as too short even by a failing provider, and a 20-byte payload
under `kp0` fails authentication. -/
theorem open_too_short_threshold_witness :
    EnvelopeEncryption.open' (.error .keyUnavailable) [] = .error .ciphertextTooShort
    ∧ EnvelopeEncryption.open' kp0 (List.replicate 20 0) = .error .decryptionFailed :=
  ⟨(open_too_short_threshold (.error .keyUnavailable) []).1 (by decide),
   (open_too_short_threshold kp0 (List.replicate 20 0)).2 km0 rfl (by decide) (by decide)⟩

/-! ## Claim C6 — encrypted-backup format detection -/

/-- C6: `is_encrypted_backup` is true exactly for inputs that parse as
JSON carrying a top-level `"encrypted"` field whose value is the boolean
`true`; every other input — malformed JSON (`none`), a missing field, a
non-boolean value, or `"encrypted": false` — yields `false`. -/
theorem is_encrypted_backup_iff (parsed : Option Json) :
    is_encrypted_backup parsed = true ↔
      ∃ v, parsed = some v ∧ v.getField "encrypted" = some (Json.bool true) := by
  constructor
  · intro h
    match parsed with
    | none => simp [is_encrypted_backup] at h
    | some v =>
      refine ⟨v, rfl, ?_⟩
      simp only [is_encrypted_backup] at h
      match hf : v.getField "encrypted" with
      | none => rw [hf] at h; simp at h
      | some f =>
        rw [hf] at h
        match f with
        | .bool b =>
          cases b with
          | true => rfl
          | false => simp [Json.asBool] at h
        | .null => simp [Json.asBool] at h
        | .num n => simp [Json.asBool] at h
        | .str s => simp [Json.asBool] at h
        | .arr xs => simp [Json.asBool] at h
        | .obj fs => simp [Json.asBool] at h
  · rintro ⟨v, rfl, hf⟩
    simp [is_encrypted_backup, hf, Json.asBool]

/-! ## Base64 inverse lemmas -/

/-- Decoding inverts encoding on every six-bit value (finite check). -/
theorem charSextet_sextetChar_fin :
    ∀ n : Fin 64, charSextet (sextetChar n.val) = some n.val := by decide

/-- No six-bit value encodes to the padding character (finite check). -/
theorem sextetChar_ne_pad_fin : ∀ n : Fin 64, sextetChar n.val ≠ '=' := by decide

theorem charSextet_sextetChar {n : Nat} (h : n < 64) :
    charSextet (sextetChar n) = some n := charSextet_sextetChar_fin ⟨n, h⟩

theorem sextetChar_ne_pad {n : Nat} (h : n < 64) : sextetChar n ≠ '=' :=
  sextetChar_ne_pad_fin ⟨n, h⟩

/-- Strict base64 decoding inverts base64 encoding on byte strings. -/
theorem b64_decode_encode :
    ∀ bs : Bytes, (∀ b ∈ bs, b < 256) →
      b64DecodeChars (b64EncodeChars bs) = some bs
  | [], _ => rfl
  | [b0], h => by
    have h0 : b0 < 256 := h b0 (by simp)
    have e0 : charSextet (sextetChar (b0 / 4)) = some (b0 / 4) :=
      charSextet_sextetChar (by omega)
    have e1 : charSextet (sextetChar (b0 % 4 * 16)) = some (b0 % 4 * 16) :=
      charSextet_sextetChar (by omega)
    have hm : b0 % 4 * 16 % 16 = 0 := Nat.mul_mod_left _ _
    simp only [b64EncodeChars, b64DecodeChars, e0, e1]
    simp [hm]
    omega
  | [b0, b1], h => by
    have h0 : b0 < 256 := h b0 (by simp)
    have h1 : b1 < 256 := h b1 (by simp)
    have e0 : charSextet (sextetChar (b0 / 4)) = some (b0 / 4) :=
      charSextet_sextetChar (by omega)
    have e1 : charSextet (sextetChar (b0 % 4 * 16 + b1 / 16))
        = some (b0 % 4 * 16 + b1 / 16) := charSextet_sextetChar (by omega)
    have e2 : charSextet (sextetChar (b1 % 16 * 4)) = some (b1 % 16 * 4) :=
      charSextet_sextetChar (by omega)
    have hne : sextetChar (b1 % 16 * 4) ≠ '=' := sextetChar_ne_pad (by omega)
    have hm : b1 % 16 * 4 % 4 = 0 := Nat.mul_mod_left _ _
    simp only [b64EncodeChars, b64DecodeChars, e0, e1, e2]
    simp [hne, hm]
    omega
  | b0 :: b1 :: b2 :: rest, h => by
    have h0 : b0 < 256 := h b0 (by simp)
    have h1 : b1 < 256 := h b1 (by simp)
    have h2 : b2 < 256 := h b2 (by simp)
    have e0 : charSextet (sextetChar (b0 / 4)) = some (b0 / 4) :=
      charSextet_sextetChar (by omega)
    have e1 : charSextet (sextetChar (b0 % 4 * 16 + b1 / 16))
        = some (b0 % 4 * 16 + b1 / 16) := charSextet_sextetChar (by omega)
    have e2 : charSextet (sextetChar (b1 % 16 * 4 + b2 / 64))
        = some (b1 % 16 * 4 + b2 / 64) := charSextet_sextetChar (by omega)
    have e3 : charSextet (sextetChar (b2 % 64)) = some (b2 % 64) :=
      charSextet_sextetChar (by omega)
    have hne2 : sextetChar (b1 % 16 * 4 + b2 / 64) ≠ '=' :=
      sextetChar_ne_pad (by omega)
    have hne3 : sextetChar (b2 % 64) ≠ '=' := sextetChar_ne_pad (by omega)
    have ih := b64_decode_encode rest (fun b hb => h b (by simp [hb]))
    simp only [b64EncodeChars, b64DecodeChars, e0, e1, e2, e3]
    simp [hne2, hne3, ih]
    omega

/-- `BASE64.decode` inverts `BASE64.encode`. -/
theorem b64Decode_b64Encode (bs : Bytes) (h : ∀ b ∈ bs, b < 256) :
    b64Decode (b64Encode bs) = some bs := by
  simpa [b64Decode, b64Encode] using b64_decode_encode bs h

/-! ## Byte-boundedness lemmas (ciphertext bytes are genuine bytes) -/

theorem getD_lt_256 :
    ∀ (l : List Nat) (i : Nat), (∀ b ∈ l, b < 256) → l.getD i 0 < 256 := by
  intro l
  induction l with
  | nil => intro i _; simp [List.getD]
  | cons a l ih =>
    intro i h
    cases i with
    | zero => exact h a (by simp)
    | succ j => exact ih j (fun b hb => h b (by simp [hb]))

theorem mem_wordBytesLE_lt (w b : Nat) (h : b ∈ wordBytesLE w) : b < 256 := by
  simp only [wordBytesLE, List.mem_cons, List.mem_singleton] at h
  rcases h with rfl | rfl | rfl | h
  · exact Nat.mod_lt _ (by omega)
  · exact Nat.mod_lt _ (by omega)
  · exact Nat.mod_lt _ (by omega)
  · rcases h with rfl | h
    · exact Nat.mod_lt _ (by omega)
    · simp at h

theorem mem_foldr_wordBytes_lt (ws : List Nat) :
    ∀ b ∈ ws.foldr (fun w acc => wordBytesLE w ++ acc) [], b < 256 := by
  induction ws with
  | nil => simp
  | cons w ws ih =>
    intro b hb
    simp only [List.foldr_cons, List.mem_append] at hb
    rcases hb with hb | hb
    · exact mem_wordBytesLE_lt w b hb
    · exact ih b hb

theorem mem_chachaBlock_lt (key : Bytes) (c : Nat) (nonce : Bytes) :
    ∀ b ∈ chachaBlock key c nonce, b < 256 :=
  mem_foldr_wordBytes_lt _

theorem chachaKeystreamByte_lt (key nonce : Bytes) (i : Nat) :
    chachaKeystreamByte key nonce i < 256 := by
  unfold chachaKeystreamByte
  exact getD_lt_256 _ _ (mem_chachaBlock_lt key (1 + i / 64) nonce)

theorem mem_chachaKeystream_lt (key nonce : Bytes) (n : Nat) :
    ∀ b ∈ chachaKeystream key nonce n, b < 256 := by
  intro b hb
  simp only [chachaKeystream, List.mem_map] at hb
  obtain ⟨i, _, rfl⟩ := hb
  exact chachaKeystreamByte_lt key nonce i

theorem mem_xorBytes_lt :
    ∀ (a b : Bytes), (∀ x ∈ a, x < 256) → (∀ x ∈ b, x < 256) →
      ∀ y ∈ xorBytes a b, y < 256 := by
  have h256 : (256 : Nat) = 2 ^ 8 := by norm_num
  intro a
  induction a with
  | nil => intro b _ _ y hy; simp [xorBytes] at hy
  | cons x a ih =>
    intro b ha hb y hy
    cases b with
    | nil => simp [xorBytes] at hy
    | cons z b =>
      simp only [xorBytes, List.zipWith_cons_cons, List.mem_cons] at hy
      rcases hy with rfl | hy
      · rw [h256]
        exact Nat.xor_lt_two_pow (h256 ▸ ha x (by simp)) (h256 ▸ hb z (by simp))
      · exact ih b (fun v hv => ha v (by simp [hv]))
          (fun v hv => hb v (by simp [hv])) y hy

theorem mem_natToLEBytes_lt (len n : Nat) :
    ∀ b ∈ natToLEBytes len n, b < 256 := by
  intro b hb
  simp only [natToLEBytes, List.mem_map] at hb
  obtain ⟨i, _, rfl⟩ := hb
  exact Nat.mod_lt _ (by omega)

theorem mem_chachaPolyEncrypt_lt (key nonce pt : Bytes)
    (hpt : ∀ b ∈ pt, b < 256) :
    ∀ b ∈ chachaPolyEncrypt key nonce pt, b < 256 := by
  intro b hb
  unfold chachaPolyEncrypt at hb
  rw [List.mem_append] at hb
  rcases hb with hb | hb
  · exact mem_xorBytes_lt pt _ hpt (mem_chachaKeystream_lt key nonce pt.length) b hb
  · exact mem_natToLEBytes_lt 16 _ b (by simpa [poly1305Tag] using hb)

/-! ## Backup-codec reduction lemmas -/

/-- `deriveKey` succeeds on the 16-byte salts `encrypt_backup` draws,
whenever the KDF supplies at least 32 bytes. -/
theorem deriveKey_ok (kdf : String → Bytes → Bytes) (pw : String) (salt : Bytes)
    (h16 : salt.length = 16) (hk : 32 ≤ (kdf pw salt).length) :
    deriveKey kdf pw salt = .ok ((kdf pw salt).take 32) := by
  unfold deriveKey
  rw [h16]
  rw [if_neg (by norm_num), if_neg (by norm_num), if_neg (by omega)]

/-- `encrypt_backup` reduced past a successful key derivation. -/
theorem encrypt_backup_ok (kdf : String → Bytes → Bytes) (d : Bytes)
    (pw : String) (salt nonce : Bytes) (key : Bytes)
    (h : deriveKey kdf pw salt = .ok key) :
    encrypt_backup kdf d pw salt nonce =
      .ok { version := 1, encrypted := true,
            salt := b64Encode salt, nonce := b64Encode nonce,
            ciphertext := b64Encode (chachaPolyEncrypt key nonce d) } := by
  unfold encrypt_backup
  rw [h]
  rfl

/-- `decrypt_backup` on a well-formed version-1 container, reduced to the
final authenticated-decryption step. -/
theorem decrypt_backup_reduce (kdf : String → Bytes → Bytes)
    (c : EncryptedBackup) (pw : String) (salt nonce ct key : Bytes)
    (hv : c.version = 1) (he : c.encrypted = true)
    (hsd : b64Decode c.salt = some salt)
    (hnd : b64Decode c.nonce = some nonce)
    (hcd : b64Decode c.ciphertext = some ct)
    (hdk : deriveKey kdf pw salt = .ok key)
    (hn12 : nonce.length = 12) :
    decrypt_backup kdf c pw =
      match chachaPolyDecrypt key nonce ct with
      | none => .error .authenticationFailed
      | some pt => if isValidUtf8 pt then .ok pt else .error .invalidUtf8 := by
  unfold decrypt_backup
  rw [if_neg (by simp [hv, BACKUP_ENCRYPTION_VERSION]), if_neg (by simp [he])]
  rw [hsd, hnd, hcd]
  simp [hdk, hn12]

/-! ## Claim C3 — backup round-trip and wrong-password rejection -/

/-- C3: for every document `d` (the UTF-8 bytes of a Rust string) and
password `pw` — the empty password included — decrypting an encrypted
backup with the same password returns exactly `d`; decrypting it with a
different password `pw2` fails with the single generic authentication
error.  The KDF is the Argon2id instance as an explicit function; the salt
and nonce are the operation's random draws.  The final hypothesis is the
AEAD security idealization at these inputs: decryption under the key
derived from `pw2` does not authenticate (its violation would be a
Poly1305 collision between the two derived keys). -/
theorem backup_round_trip
    (kdf : String → Bytes → Bytes) (d : Bytes) (pw pw2 : String)
    (salt nonce : Bytes)
    (hd8 : ∀ b ∈ d, b < 256) (hdu : isValidUtf8 d = true)
    (hs : salt.length = 16) (hs8 : ∀ b ∈ salt, b < 256)
    (hn : nonce.length = 12) (hn8 : ∀ b ∈ nonce, b < 256)
    (hk : 32 ≤ (kdf pw salt).length) (hk2 : 32 ≤ (kdf pw2 salt).length)
    (hne : pw2 ≠ pw)
    (htag : chachaPolyDecrypt ((kdf pw2 salt).take 32) nonce
        (chachaPolyEncrypt ((kdf pw salt).take 32) nonce d) = none) :
    (encrypt_backup kdf d pw salt nonce).bind
      (fun c => decrypt_backup kdf c pw) = .ok d
    ∧ (encrypt_backup kdf d pw salt nonce).bind
      (fun c => decrypt_backup kdf c pw2) = .error .authenticationFailed := by
  have _ := hne
  have hdk : deriveKey kdf pw salt = .ok ((kdf pw salt).take 32) :=
    deriveKey_ok kdf pw salt hs hk
  have hdk2 : deriveKey kdf pw2 salt = .ok ((kdf pw2 salt).take 32) :=
    deriveKey_ok kdf pw2 salt hs hk2
  have hct8 : ∀ b ∈ chachaPolyEncrypt ((kdf pw salt).take 32) nonce d, b < 256 :=
    mem_chachaPolyEncrypt_lt _ _ _ hd8
  have henc := encrypt_backup_ok kdf d pw salt nonce _ hdk
  have hsd := b64Decode_b64Encode salt hs8
  have hnd := b64Decode_b64Encode nonce hn8
  have hcd := b64Decode_b64Encode _ hct8
  constructor
  · rw [henc]
    show decrypt_backup kdf _ pw = .ok d
    rw [decrypt_backup_reduce kdf _ pw salt nonce _ _ rfl rfl hsd hnd hcd hdk hn]
    rw [chachaPoly_roundtrip]
    simp [hdu]
  · rw [henc]
    show decrypt_backup kdf _ pw2 = .error .authenticationFailed
    rw [decrypt_backup_reduce kdf _ pw2 salt nonce _ _ rfl rfl hsd hnd hcd hdk2 hn]
    rw [htag]

/-- Witness for C3 at concrete documents, passwords, salt, nonce and a
concrete KDF instance separating the two passwords. -/
theorem backup_round_trip_witness :
    (encrypt_backup kdf0 [104, 105] "a" salt0 nonce0).bind
      (fun c => decrypt_backup kdf0 c "a") = .ok [104, 105]
    ∧ (encrypt_backup kdf0 [104, 105] "a" salt0 nonce0).bind
      (fun c => decrypt_backup kdf0 c "b") = .error .authenticationFailed :=
  backup_round_trip kdf0 [104, 105] "a" "b" salt0 nonce0
    (by decide) (by decide) (by decide) (by decide) (by decide) (by decide)
    (by decide) (by decide) (by decide) (by decide)

/-! ## Claim C4 — decrypt_backup error taxonomy -/

/-- C4 counterexample: a well-formed version-1 container whose ciphertext
authenticates under the supplied password but decrypts to the byte `0xFF`
makes `decrypt_backup` fail with the invalid-UTF-8 error — a failure mode
outside the claimed exhaustive taxonomy (version mismatch, not-encrypted,
base64 decode failure, generic authentication failure). -/
theorem decrypt_backup_taxonomy_counterexample :
    decrypt_backup kdf0 containerFF "pw" = .error .invalidUtf8 ∧
    (BackupError.invalidUtf8 ≠ .versionMismatch
      ∧ BackupError.invalidUtf8 ≠ .notEncrypted
      ∧ BackupError.invalidUtf8 ≠ .decodeSaltFailed
      ∧ BackupError.invalidUtf8 ≠ .decodeNonceFailed
      ∧ BackupError.invalidUtf8 ≠ .decodeCiphertextFailed
      ∧ BackupError.invalidUtf8 ≠ .authenticationFailed) :=
  ⟨by decide, by decide⟩

/-- C4 (amended): `decrypt_backup` fails with the version-mismatch error
when the version differs from 1 (checked first), with the not-encrypted
error when the flag is false, with the respective decode error when the
base64 of salt, nonce or ciphertext is malformed, and with the one generic
authentication error on any tag-check failure (wrong password and
corrupted ciphertext are indistinguishable there); but success
additionally requires the decrypted bytes to be valid UTF-8, and the
salt-re-encoding/KDF steps and the nonce-length panic are further failure
modes outside the claimed taxonomy. -/
theorem decrypt_backup_error_taxonomy (kdf : String → Bytes → Bytes)
    (c : EncryptedBackup) (pw : String) :
    (c.version ≠ 1 → decrypt_backup kdf c pw = .error .versionMismatch)
    ∧ (c.version = 1 → c.encrypted = false →
        decrypt_backup kdf c pw = .error .notEncrypted)
    ∧ (c.version = 1 → c.encrypted = true → b64Decode c.salt = none →
        decrypt_backup kdf c pw = .error .decodeSaltFailed)
    ∧ (∀ salt, c.version = 1 → c.encrypted = true →
        b64Decode c.salt = some salt → b64Decode c.nonce = none →
        decrypt_backup kdf c pw = .error .decodeNonceFailed)
    ∧ (∀ salt nonce, c.version = 1 → c.encrypted = true →
        b64Decode c.salt = some salt → b64Decode c.nonce = some nonce →
        b64Decode c.ciphertext = none →
        decrypt_backup kdf c pw = .error .decodeCiphertextFailed)
    ∧ (∀ salt nonce ct key, c.version = 1 → c.encrypted = true →
        b64Decode c.salt = some salt → b64Decode c.nonce = some nonce →
        b64Decode c.ciphertext = some ct → deriveKey kdf pw salt = .ok key →
        nonce.length = 12 → chachaPolyDecrypt key nonce ct = none →
        decrypt_backup kdf c pw = .error .authenticationFailed)
    ∧ (∀ pt, decrypt_backup kdf c pw = .ok pt →
        c.version = 1 ∧ c.encrypted = true ∧ isValidUtf8 pt = true) := by
  refine ⟨?_, ?_, ?_, ?_, ?_, ?_, ?_⟩
  · intro hv
    unfold decrypt_backup
    rw [if_pos (by simpa [BACKUP_ENCRYPTION_VERSION] using hv)]
  · intro hv he
    unfold decrypt_backup
    rw [if_neg (by simp [hv, BACKUP_ENCRYPTION_VERSION]), if_pos he]
  · intro hv he hsd
    unfold decrypt_backup
    rw [if_neg (by simp [hv, BACKUP_ENCRYPTION_VERSION]), if_neg (by simp [he]), hsd]
  · intro salt hv he hsd hnd
    unfold decrypt_backup
    rw [if_neg (by simp [hv, BACKUP_ENCRYPTION_VERSION]), if_neg (by simp [he]),
      hsd, hnd]
  · intro salt nonce hv he hsd hnd hcd
    unfold decrypt_backup
    rw [if_neg (by simp [hv, BACKUP_ENCRYPTION_VERSION]), if_neg (by simp [he]),
      hsd, hnd, hcd]
  · intro salt nonce ct key hv he hsd hnd hcd hdk hn12 hdec
    rw [decrypt_backup_reduce kdf c pw salt nonce ct key hv he hsd hnd hcd hdk hn12]
    rw [hdec]
  · intro pt h
    unfold decrypt_backup at h
    split at h
    · exact Except.noConfusion h
    · rename_i hv
      split at h
      · exact Except.noConfusion h
      · rename_i he
        split at h
        · exact Except.noConfusion h
        · split at h
          · exact Except.noConfusion h
          · split at h
            · exact Except.noConfusion h
            · split at h
              · exact Except.noConfusion h
              · split at h
                · exact Except.noConfusion h
                · split at h
                  · exact Except.noConfusion h
                  · split at h
                    · rename_i hu
                      injection h with h'
                      subst h'
                      refine ⟨?_, ?_, hu⟩
                      · simpa [BACKUP_ENCRYPTION_VERSION] using hv
                      · simpa using he
                    · exact Except.noConfusion h

/-- Witness for C4 (amended) at a concrete unknown-version container. -/
theorem decrypt_backup_error_taxonomy_witness :
    decrypt_backup kdf0 containerV2 "pw" = .error .versionMismatch :=
  (decrypt_backup_error_taxonomy kdf0 containerV2 "pw").1 (by decide)

/-! ## Record-serialization inverse lemmas -/

theorem map_ofNat_toNat : ∀ l : List Char, (l.map Char.toNat).map Char.ofNat = l := by
  intro l
  induction l with
  | nil => rfl
  | cons c l ih => simp [Char.ofNat_toNat, ih]

theorem readStr_encStr (s : String) (tl : Bytes) :
    readStr (encStr s ++ tl) = some (s, tl) := by
  show readStr (s.data.length :: (s.data.map Char.toNat ++ tl)) = some (s, tl)
  simp only [readStr]
  rw [if_neg (by simp)]
  rw [List.take_left' (by simp), List.drop_left' (by simp)]
  rw [map_ofNat_toNat]

theorem readBool_encBool (b : Bool) (tl : Bytes) :
    readBool (encBool b ++ tl) = some (b, tl) := by
  cases b <;> rfl

theorem readBool_encBool_nil (b : Bool) :
    readBool (encBool b) = some (b, []) := by
  cases b <;> rfl

theorem readStr_encStr_nil (s : String) :
    readStr (encStr s) = some (s, []) := by
  have h := readStr_encStr s []
  simpa using h

theorem readOpt_encOpt_str (o : Option String) (tl : Bytes) :
    readOpt readStr (encOpt encStr o ++ tl) = some (o, tl) := by
  cases o with
  | none => rfl
  | some s =>
    show readOpt readStr (1 :: (encStr s ++ tl)) = some (some s, tl)
    simp [readOpt, readStr_encStr]

theorem readF32_encF32 (v : F32) (tl : Bytes) :
    readF32 (encF32 v ++ tl) = some (v, tl) := rfl

theorem readOpt_encOpt_f32 (o : Option F32) (tl : Bytes) :
    readOpt readF32 (encOpt encF32 o ++ tl) = some (o, tl) := by
  cases o with
  | none => rfl
  | some v => simp [encOpt, readOpt, readF32_encF32]

theorem readAlertType_encAlertType (t : AlertType) (tl : Bytes) :
    readAlertType (encAlertType t ++ tl) = some (t, tl) := by
  cases t <;> rfl

theorem readAlertSeverity_encAlertSeverity (s : AlertSeverity) (tl : Bytes) :
    readAlertSeverity (encAlertSeverity s ++ tl) = some (s, tl) := by
  cases s <;> rfl

/-- The record codec standing in for `serde_json` round-trips protocols. -/
theorem deserializeProtocol_serializeProtocol (p : PeptideProtocol) :
    deserializeProtocol (serializeProtocol p) = some p := by
  unfold serializeProtocol deserializeProtocol
  simp only [List.append_assoc]
  simp only [readStr_encStr, readOpt_encOpt_str, readOpt_encOpt_f32,
    readBool_encBool, readBool_encBool_nil, Option.bind_eq_bind,
    Option.some_bind]
  rfl

/-- The record codec standing in for `serde_json` round-trips alerts. -/
theorem deserializeAlert_serializeAlert (a : Alert) :
    deserializeAlert (serializeAlert a) = some a := by
  unfold serializeAlert deserializeAlert
  simp only [List.append_assoc]
  simp only [readStr_encStr, readStr_encStr_nil, readAlertType_encAlertType,
    readAlertSeverity_encAlertSeverity, readOpt_encOpt_str, readBool_encBool,
    Option.bind_eq_bind, Option.some_bind]
  rfl

/-! ## Claim C2 — plaintext index columns vs. encrypted payload -/

/-- `upsert_protocol` on a successful provider reduced to the row write. -/
theorem upsert_protocol_ok (km nonce : Bytes) (db : Db) (p : PeptideProtocol) :
    StorageManager.upsert_protocol (.ok ⟨km⟩) nonce db p =
      .ok { db with
            protocols := StorageManager.upsertProtocolRow db.protocols
              { id := p.id, name := p.name,
                payload := nonce ++ chachaPolyEncrypt
                  (KeyMaterial.toKeyBytes ⟨km⟩) nonce (serializeProtocol p),
                updated_at := p.updated_at, is_favorite := p.is_favorite } } := by
  unfold StorageManager.upsert_protocol EnvelopeEncryption.seal
  rfl

/-- A row of an upserted table carrying the new row's id is the new row. -/
theorem mem_upsertProtocolRow_eq (rows : List ProtocolRow) (nr : ProtocolRow) :
    ∀ r ∈ StorageManager.upsertProtocolRow rows nr, r.id = nr.id → r = nr := by
  intro r hr hid
  unfold StorageManager.upsertProtocolRow at hr
  by_cases hany : rows.any (fun q => q.id = nr.id)
  · rw [if_pos hany] at hr
    obtain ⟨q, hq, hfq⟩ := List.mem_map.mp hr
    by_cases hqi : q.id = nr.id
    · rw [if_pos hqi] at hfq; exact hfq.symm
    · rw [if_neg hqi] at hfq; subst hfq; exact absurd hid hqi
  · rw [if_neg hany] at hr
    rcases List.mem_append.mp hr with hr | hr
    · exact absurd (List.any_eq_true.mpr ⟨r, hr, by simp [hid]⟩) hany
    · simpa using hr

set_option maxHeartbeats 2000000 in
/-- C2 counterexample: create an unread alert, then `mark_alert_read`.
The plaintext `is_read` column of the row becomes `1`, while decrypting
its payload still yields the original record with `is_read = false`: the
columns and the encrypted payload have drifted apart after a write. -/
theorem mark_alert_read_drift_counterexample :
    (StorageManager.mark_alert_read dbWithAlert "a1").alerts.map
      (fun r => r.is_read) = [true]
    ∧ (StorageManager.mark_alert_read dbWithAlert "a1").alerts.map
      (fun r => (EnvelopeEncryption.open' kp0 r.payload).toOption.bind
        deserializeAlert) = [some alert0]
    ∧ alert0.is_read = false :=
  ⟨by decide, by decide, by decide⟩

/-- C2 (amended): upsert-style writes do keep the duplicated plaintext
columns consistent with the encrypted payload — after `upsert_protocol`,
the row carrying the record's id has the record's name, favorite flag and
timestamp, and its payload decrypts and deserializes back to the record —
but `mark_alert_read` and `dismiss_alert` update only their flag column
and leave every payload byte untouched, so for those two writes the
decrypted payload's flag can disagree with the column. -/
theorem plaintext_columns_payload_consistency :
    (∀ (km nonce : Bytes) (db : Db) (p : PeptideProtocol),
      nonce.length = 12 →
      ∃ db', StorageManager.upsert_protocol (.ok ⟨km⟩) nonce db p = .ok db'
        ∧ ∀ r ∈ db'.protocols, r.id = p.id →
            r.name = p.name ∧ r.is_favorite = p.is_favorite
            ∧ r.updated_at = p.updated_at
            ∧ (EnvelopeEncryption.open' (.ok ⟨km⟩) r.payload).toOption.bind
                deserializeProtocol = some p)
    ∧ (∀ (db : Db) (aid : String),
        (StorageManager.mark_alert_read db aid).alerts.map (fun r => r.payload)
          = db.alerts.map (fun r => r.payload)
        ∧ (StorageManager.mark_alert_read db aid).alerts.map (fun r => r.is_read)
          = db.alerts.map (fun r => if r.id = aid then true else r.is_read))
    ∧ (∀ (db : Db) (aid : String),
        (StorageManager.dismiss_alert db aid).alerts.map (fun r => r.payload)
          = db.alerts.map (fun r => r.payload)
        ∧ (StorageManager.dismiss_alert db aid).alerts.map
            (fun r => r.is_dismissed)
          = db.alerts.map (fun r => if r.id = aid then true else r.is_dismissed)) := by
  refine ⟨?_, ?_, ?_⟩
  · intro km nonce db p hn
    refine ⟨_, upsert_protocol_ok km nonce db p, ?_⟩
    intro r hr hid
    have hrow := mem_upsertProtocolRow_eq _ _ r hr hid
    subst hrow
    refine ⟨rfl, rfl, rfl, ?_⟩
    show (EnvelopeEncryption.open' (.ok ⟨km⟩)
      (nonce ++ chachaPolyEncrypt (KeyMaterial.toKeyBytes ⟨km⟩) nonce
        (serializeProtocol p))).toOption.bind deserializeProtocol = some p
    rw [open_of_seal km nonce (serializeProtocol p) hn]
    show deserializeProtocol (serializeProtocol p) = some p
    exact deserializeProtocol_serializeProtocol p
  · intro db aid
    constructor
    · unfold StorageManager.mark_alert_read
      simp only [List.map_map]
      refine List.map_congr_left ?_
      intro r _
      by_cases h : r.id = aid <;> simp [h]
    · unfold StorageManager.mark_alert_read
      simp only [List.map_map]
      refine List.map_congr_left ?_
      intro r _
      by_cases h : r.id = aid <;> simp [h]
  · intro db aid
    constructor
    · unfold StorageManager.dismiss_alert
      simp only [List.map_map]
      refine List.map_congr_left ?_
      intro r _
      by_cases h : r.id = aid <;> simp [h]
    · unfold StorageManager.dismiss_alert
      simp only [List.map_map]
      refine List.map_congr_left ?_
      intro r _
      by_cases h : r.id = aid <;> simp [h]

/-- Witness for C2 (amended): a concrete upsert whose row decrypts back to
the record it was written from. -/
theorem plaintext_columns_payload_consistency_witness :
    ∃ db', StorageManager.upsert_protocol (.ok ⟨List.replicate 32 7⟩)
        (List.replicate 12 0) emptyDb
        { id := "p1", name := "Morning Stack", peptide_name := "BPC-157",
          notes := none, current_vial_status := none,
          target_concentration_mg_ml := none, created_at := "t0",
          updated_at := "t1", is_favorite := false } = .ok db'
      ∧ ∀ r ∈ db'.protocols, r.id = "p1" →
          r.name = "Morning Stack" ∧ r.is_favorite = false ∧ r.updated_at = "t1"
          ∧ (EnvelopeEncryption.open' (.ok ⟨List.replicate 32 7⟩)
              r.payload).toOption.bind deserializeProtocol
            = some { id := "p1", name := "Morning Stack",
                     peptide_name := "BPC-157", notes := none,
                     current_vial_status := none,
                     target_concentration_mg_ml := none, created_at := "t0",
                     updated_at := "t1", is_favorite := false } :=
  (plaintext_columns_payload_consistency.1 (List.replicate 32 7)
    (List.replicate 12 0) emptyDb _ (by decide))

/-! ## List bookkeeping for bulk deletes -/

/-- Splitting a membership filter at the head id: rows hitting `pid :: rest`
are the rows hitting `pid` plus the surviving rows hitting `rest`. -/
theorem filter_mem_cons_split {α : Type} (key : α → String) (pid : String)
    (rest : List String) :
    ∀ l : List α,
      (l.filter (fun x => key x ∈ pid :: rest)).length
        = (l.filter (fun x => key x = pid)).length
          + ((l.filter (fun x => ¬ key x = pid)).filter
              (fun x => key x ∈ rest)).length := by
  intro l
  induction l with
  | nil => simp
  | cons a l ih =>
    by_cases h1 : key a = pid
    · simp [List.filter_cons, h1, List.mem_cons, List.filter_filter] at ih ⊢
      omega
    · by_cases h2 : key a ∈ rest
      · simp [List.filter_cons, h1, h2, List.mem_cons, List.filter_filter] at ih ⊢
        omega
      · simp [List.filter_cons, h1, h2, List.mem_cons, List.filter_filter] at ih ⊢
        omega

/-- Collapsing two negative filters into membership in the combined list. -/
theorem filter_not_mem_cons {α : Type} (key : α → String) (pid : String)
    (rest : List String) (l : List α) :
    (l.filter (fun x => ¬ key x = pid)).filter (fun x => ¬ key x ∈ rest)
      = l.filter (fun x => ¬ key x ∈ pid :: rest) := by
  rw [List.filter_filter]
  refine List.filter_congr ?_
  intro x _
  simp [List.mem_cons, Bool.and_comm]

/-- A filter by `= pid` of length zero means the negative filter changes
nothing. -/
theorem filter_ne_of_none {α : Type} (key : α → String) (pid : String)
    (l : List α) (h : (l.filter (fun x => key x = pid)).length = 0) :
    l.filter (fun x => ¬ key x = pid) = l := by
  have hnil : l.filter (fun x => key x = pid) = [] := List.length_eq_zero.mp h
  refine List.filter_eq_self.mpr ?_
  intro x hx
  by_contra hc
  have hmem : x ∈ l.filter (fun x => key x = pid) := by
    rw [List.mem_filter]
    simp at hc
    exact ⟨hx, by simp [hc]⟩
  rw [hnil] at hmem
  simp at hmem

/-! ## Claim C7 — bulk deletes: atomic loop, count of rows actually deleted -/

theorem deleteProtocolRows_spec (db : Db) (pid : String) :
    (StorageManager.deleteProtocolRows db pid).1.protocols
      = db.protocols.filter (fun r => ¬ r.id = pid)
    ∧ (StorageManager.deleteProtocolRows db pid).2
      = (db.protocols.filter (fun r => r.id = pid)).length := by
  unfold StorageManager.deleteProtocolRows
  by_cases h : (db.protocols.filter (fun r => r.id = pid)).length = 0
  · rw [if_pos h]
    exact ⟨(filter_ne_of_none (fun r => r.id) pid db.protocols h).symm, h.symm⟩
  · rw [if_neg h]
    exact ⟨rfl, rfl⟩

theorem bulkDeleteProtocolsGo_spec :
    ∀ (ids : List String) (db : Db),
      (StorageManager.bulkDeleteProtocolsGo db ids).1.protocols
        = db.protocols.filter (fun r => ¬ r.id ∈ ids)
      ∧ (StorageManager.bulkDeleteProtocolsGo db ids).2
        = (db.protocols.filter (fun r => r.id ∈ ids)).length := by
  intro ids
  induction ids with
  | nil =>
    intro db
    exact ⟨by simp [StorageManager.bulkDeleteProtocolsGo],
      by simp [StorageManager.bulkDeleteProtocolsGo]⟩
  | cons pid rest ih =>
    intro db
    have hgo : StorageManager.bulkDeleteProtocolsGo db (pid :: rest)
        = ((StorageManager.bulkDeleteProtocolsGo
              (StorageManager.deleteProtocolRows db pid).1 rest).1,
           (StorageManager.deleteProtocolRows db pid).2
             + (StorageManager.bulkDeleteProtocolsGo
                 (StorageManager.deleteProtocolRows db pid).1 rest).2) := rfl
    obtain ⟨hdp, hdc⟩ := deleteProtocolRows_spec db pid
    obtain ⟨hgp, hgc⟩ := ih (StorageManager.deleteProtocolRows db pid).1
    constructor
    · rw [hgo]
      show (StorageManager.bulkDeleteProtocolsGo
        (StorageManager.deleteProtocolRows db pid).1 rest).1.protocols = _
      rw [hgp, hdp]
      exact filter_not_mem_cons (fun r => r.id) pid rest db.protocols
    · rw [hgo]
      show (StorageManager.deleteProtocolRows db pid).2
          + (StorageManager.bulkDeleteProtocolsGo
              (StorageManager.deleteProtocolRows db pid).1 rest).2 = _
      rw [hdc, hgc, hdp]
      exact (filter_mem_cons_split (fun r => r.id) pid rest db.protocols).symm

theorem bulkDeleteDosesGo_spec :
    ∀ (ids : List String) (db : Db),
      (StorageManager.bulkDeleteDosesGo db ids).1.dose_logs
        = db.dose_logs.filter (fun d => ¬ d.id ∈ ids)
      ∧ (StorageManager.bulkDeleteDosesGo db ids).2
        = (db.dose_logs.filter (fun d => d.id ∈ ids)).length := by
  intro ids
  induction ids with
  | nil =>
    intro db
    exact ⟨by simp [StorageManager.bulkDeleteDosesGo],
      by simp [StorageManager.bulkDeleteDosesGo]⟩
  | cons did rest ih =>
    intro db
    have hgo : StorageManager.bulkDeleteDosesGo db (did :: rest)
        = ((StorageManager.bulkDeleteDosesGo
              { db with dose_logs := db.dose_logs.filter (fun d => ¬ d.id = did) }
              rest).1,
           (db.dose_logs.filter (fun d => d.id = did)).length
             + (StorageManager.bulkDeleteDosesGo
                 { db with dose_logs := db.dose_logs.filter (fun d => ¬ d.id = did) }
                 rest).2) := rfl
    obtain ⟨hgp, hgc⟩ :=
      ih { db with dose_logs := db.dose_logs.filter (fun d => ¬ d.id = did) }
    constructor
    · rw [hgo]
      show (StorageManager.bulkDeleteDosesGo _ rest).1.dose_logs = _
      rw [hgp]
      exact filter_not_mem_cons (fun d => d.id) did rest db.dose_logs
    · rw [hgo]
      show (db.dose_logs.filter (fun d => d.id = did)).length
          + (StorageManager.bulkDeleteDosesGo _ rest).2 = _
      rw [hgc]
      exact (filter_mem_cons_split (fun d => d.id) did rest db.dose_logs).symm

theorem bulkDeleteBodyMetricsGo_spec :
    ∀ (ids : List String) (db : Db),
      (StorageManager.bulkDeleteBodyMetricsGo db ids).1.body_metrics
        = db.body_metrics.filter (fun m => ¬ m.id ∈ ids)
      ∧ (StorageManager.bulkDeleteBodyMetricsGo db ids).2
        = (db.body_metrics.filter (fun m => m.id ∈ ids)).length := by
  intro ids
  induction ids with
  | nil =>
    intro db
    exact ⟨by simp [StorageManager.bulkDeleteBodyMetricsGo],
      by simp [StorageManager.bulkDeleteBodyMetricsGo]⟩
  | cons mid rest ih =>
    intro db
    have hgo : StorageManager.bulkDeleteBodyMetricsGo db (mid :: rest)
        = ((StorageManager.bulkDeleteBodyMetricsGo
              { db with body_metrics := db.body_metrics.filter (fun m => ¬ m.id = mid) }
              rest).1,
           (db.body_metrics.filter (fun m => m.id = mid)).length
             + (StorageManager.bulkDeleteBodyMetricsGo
                 { db with body_metrics := db.body_metrics.filter (fun m => ¬ m.id = mid) }
                 rest).2) := rfl
    obtain ⟨hgp, hgc⟩ :=
      ih { db with body_metrics := db.body_metrics.filter (fun m => ¬ m.id = mid) }
    constructor
    · rw [hgo]
      show (StorageManager.bulkDeleteBodyMetricsGo _ rest).1.body_metrics = _
      rw [hgp]
      exact filter_not_mem_cons (fun m => m.id) mid rest db.body_metrics
    · rw [hgo]
      show (db.body_metrics.filter (fun m => m.id = mid)).length
          + (StorageManager.bulkDeleteBodyMetricsGo _ rest).2 = _
      rw [hgc]
      exact (filter_mem_cons_split (fun m => m.id) mid rest db.body_metrics).symm

/-- C7: each bulk delete (`protocols`, `dose_logs`, `body_metrics`) runs
its per-id statement loop inside one committed transaction (one atomic
state transition here), never fails, and returns the number of rows
actually deleted — exactly the rows whose id appears in the list, each
once; in particular one existing and one non-existent id delete the
existing row with count 1, uniformly in the input. -/
theorem bulk_delete_count_spec (db : Db) (ids : List String) :
    (∃ db₁, StorageManager.bulk_delete_protocols db ids
        = .ok (db₁, (db.protocols.filter (fun r => r.id ∈ ids)).length)
      ∧ db₁.protocols = db.protocols.filter (fun r => ¬ r.id ∈ ids))
    ∧ (∃ db₂, StorageManager.bulk_delete_doses db ids
        = .ok (db₂, (db.dose_logs.filter (fun d => d.id ∈ ids)).length)
      ∧ db₂.dose_logs = db.dose_logs.filter (fun d => ¬ d.id ∈ ids))
    ∧ (∃ db₃, StorageManager.bulk_delete_body_metrics db ids
        = .ok (db₃, (db.body_metrics.filter (fun m => m.id ∈ ids)).length)
      ∧ db₃.body_metrics = db.body_metrics.filter (fun m => ¬ m.id ∈ ids)) := by
  refine ⟨?_, ?_, ?_⟩
  · obtain ⟨hp, hc⟩ := bulkDeleteProtocolsGo_spec ids db
    by_cases hids : ids.isEmpty
    · have : ids = [] := List.isEmpty_iff.mp hids
      subst this
      exact ⟨db, by simp [StorageManager.bulk_delete_protocols], by simp⟩
    · refine ⟨(StorageManager.bulkDeleteProtocolsGo db ids).1, ?_, hp⟩
      unfold StorageManager.bulk_delete_protocols
      rw [if_neg hids, ← hc]
  · obtain ⟨hp, hc⟩ := bulkDeleteDosesGo_spec ids db
    by_cases hids : ids.isEmpty
    · have : ids = [] := List.isEmpty_iff.mp hids
      subst this
      exact ⟨db, by simp [StorageManager.bulk_delete_doses], by simp⟩
    · refine ⟨(StorageManager.bulkDeleteDosesGo db ids).1, ?_, hp⟩
      unfold StorageManager.bulk_delete_doses
      rw [if_neg hids, ← hc]
  · obtain ⟨hp, hc⟩ := bulkDeleteBodyMetricsGo_spec ids db
    by_cases hids : ids.isEmpty
    · have : ids = [] := List.isEmpty_iff.mp hids
      subst this
      exact ⟨db, by simp [StorageManager.bulk_delete_body_metrics], by simp⟩
    · refine ⟨(StorageManager.bulkDeleteBodyMetricsGo db ids).1, ?_, hp⟩
      unfold StorageManager.bulk_delete_body_metrics
      rw [if_neg hids, ← hc]

/-! ## Claim C9 — absence of the id is an error only for protocols -/

/-- C9: `delete_protocol` is the single delete that reports an absent id
as an error (`"Protocol not found"` when the `DELETE` affected zero rows);
`delete_dose_log`, `delete_supplier`, `delete_inventory_item`,
`delete_body_metric` and `delete_summary` return `Ok` unconditionally, a
no-match `DELETE` included. -/
theorem delete_absence_policy (db : Db) (someId : String) :
    ((db.protocols.filter (fun r => r.id = someId)).length = 0 →
      StorageManager.delete_protocol db someId = .error .notFound)
    ∧ ((db.protocols.filter (fun r => r.id = someId)).length ≠ 0 →
      ∃ db', StorageManager.delete_protocol db someId = .ok db')
    ∧ (∃ d, StorageManager.delete_dose_log db someId = .ok d)
    ∧ (∃ d, StorageManager.delete_supplier db someId = .ok d)
    ∧ (∃ d, StorageManager.delete_inventory_item db someId = .ok d)
    ∧ (∃ d, StorageManager.delete_body_metric db someId = .ok d)
    ∧ (∃ d, StorageManager.delete_summary db someId = .ok d) := by
  have hred : StorageManager.delete_protocol db someId
      = (if (StorageManager.deleteProtocolRows db someId).2 = 0
         then .error .notFound
         else .ok (StorageManager.deleteProtocolRows db someId).1) := rfl
  have hc := (deleteProtocolRows_spec db someId).2
  refine ⟨?_, ?_, ⟨_, rfl⟩, ?_, ⟨_, rfl⟩, ⟨_, rfl⟩, ⟨_, rfl⟩⟩
  · intro h
    rw [hred, hc, if_pos h]
  · intro h
    rw [hred, hc, if_neg h]
    exact ⟨_, rfl⟩
  · by_cases h : (db.suppliers.filter (fun s => s.id = someId)).length = 0
    · exact ⟨db, by unfold StorageManager.delete_supplier; rw [if_pos h]⟩
    · exact ⟨_, by unfold StorageManager.delete_supplier; rw [if_neg h]⟩

/-- Witness for C9 on the empty database (every id is absent there). -/
theorem delete_absence_policy_witness :
    StorageManager.delete_protocol emptyDb "missing" = .error .notFound :=
  (delete_absence_policy emptyDb "missing").1 (by decide)

/-! ## Claim C10 — checkpoint mode selection -/

/-- C10: `checkpoint_wal` treats its mode case-insensitively (the result
depends only on the uppercased mode), and any mode whose uppercase form is
not PASSIVE/FULL/RESTART/TRUNCATE runs a PASSIVE checkpoint and returns
`Ok` instead of rejecting the call. -/
theorem checkpoint_mode_policy (m1 m2 : String) :
    (StorageManager.asciiUppercase m1 = StorageManager.asciiUppercase m2 →
      StorageManager.checkpoint_wal m1 = StorageManager.checkpoint_wal m2)
    ∧ (StorageManager.asciiUppercase m1 ∉
        (["PASSIVE", "FULL", "RESTART", "TRUNCATE"] : List String) →
      StorageManager.checkpoint_wal m1 = .ok "PASSIVE") := by
  constructor
  · intro h
    unfold StorageManager.checkpoint_wal StorageManager.chooseCheckpointMode
    rw [h]
  · intro h
    unfold StorageManager.checkpoint_wal StorageManager.chooseCheckpointMode
    split
    · rename_i heq; exact absurd (by simp [heq]) h
    · rename_i heq; exact absurd (by simp [heq]) h
    · rename_i heq; exact absurd (by simp [heq]) h
    · rename_i heq; exact absurd (by simp [heq]) h
    · rfl

/-- Witness for C10: mixed case resolves like uppercase, and an unknown
mode is accepted as a PASSIVE checkpoint. -/
theorem checkpoint_mode_policy_witness :
    StorageManager.checkpoint_wal "Truncate" = StorageManager.checkpoint_wal "TRUNCATE"
    ∧ StorageManager.checkpoint_wal "banana" = .ok "PASSIVE" :=
  ⟨(checkpoint_mode_policy "Truncate" "TRUNCATE").1 (by decide),
   (checkpoint_mode_policy "banana" "banana").2 (by decide)⟩

/-! ## Schema-state bookkeeping -/

theorem hasTable_createTable_self (s : SchemaState) (n : String)
    (cols : List String) : hasTable (createTableIfNotExists s n cols) n = true := by
  unfold createTableIfNotExists
  by_cases h : hasTable s n = true
  · rw [if_pos h]; exact h
  · rw [if_neg (by simpa using h)]
    unfold hasTable
    simp

theorem hasTable_createTable_mono (s : SchemaState) (n m : String)
    (cols : List String) (h : hasTable s n = true) :
    hasTable (createTableIfNotExists s m cols) n = true := by
  unfold createTableIfNotExists
  split
  · exact h
  · unfold hasTable at h ⊢
    simp only [List.any_append]
    simp [h]

theorem createTable_of_hasTable (s : SchemaState) (n : String)
    (cols : List String) (h : hasTable s n = true) :
    createTableIfNotExists s n cols = s := by
  unfold createTableIfNotExists
  rw [if_pos h]

theorem tables_createIndex (s : SchemaState) (i : String) :
    (createIndexIfNotExists s i).tables = s.tables := by
  unfold createIndexIfNotExists
  split <;> rfl

theorem hasTable_createIndex (s : SchemaState) (i n : String) :
    hasTable (createIndexIfNotExists s i) n = hasTable s n := by
  unfold hasTable
  rw [tables_createIndex]

theorem hasColumn_createIndex (s : SchemaState) (i t c : String) :
    hasColumn (createIndexIfNotExists s i) t c = hasColumn s t c := by
  unfold hasColumn
  rw [tables_createIndex]

theorem hasTable_foldIndexes (l : List String) :
    ∀ (s : SchemaState) (n : String),
      hasTable (l.foldl createIndexIfNotExists s) n = hasTable s n := by
  induction l with
  | nil => intro s n; rfl
  | cons i rest ih =>
    intro s n
    simp only [List.foldl_cons]
    rw [ih, hasTable_createIndex]

theorem hasColumn_foldIndexes (l : List String) :
    ∀ (s : SchemaState) (t c : String),
      hasColumn (l.foldl createIndexIfNotExists s) t c = hasColumn s t c := by
  induction l with
  | nil => intro s t c; rfl
  | cons i rest ih =>
    intro s t c
    simp only [List.foldl_cons]
    rw [ih, hasColumn_createIndex]

theorem hasTable_foldTables_mono (defs : List (String × List String)) :
    ∀ (s : SchemaState) (n : String), hasTable s n = true →
      hasTable (defs.foldl (fun acc t => createTableIfNotExists acc t.1 t.2) s) n
        = true := by
  induction defs with
  | nil => intro s n h; exact h
  | cons d rest ih =>
    intro s n h
    simp only [List.foldl_cons]
    exact ih _ n (hasTable_createTable_mono s n d.1 d.2 h)

theorem hasTable_foldTables_mem (defs : List (String × List String)) :
    ∀ (s : SchemaState) (d : String × List String), d ∈ defs →
      hasTable (defs.foldl (fun acc t => createTableIfNotExists acc t.1 t.2) s) d.1
        = true := by
  induction defs with
  | nil => intro s d h; simp at h
  | cons d0 rest ih =>
    intro s d h
    simp only [List.foldl_cons]
    rcases List.mem_cons.mp h with rfl | h
    · exact hasTable_foldTables_mono rest _ d.1 (hasTable_createTable_self s d.1 d.2)
    · exact ih _ d h

theorem foldTables_of_all (defs : List (String × List String)) :
    ∀ s : SchemaState, (∀ d ∈ defs, hasTable s d.1 = true) →
      defs.foldl (fun acc t => createTableIfNotExists acc t.1 t.2) s = s := by
  induction defs with
  | nil => intro s _; rfl
  | cons d rest ih =>
    intro s h
    simp only [List.foldl_cons]
    rw [createTable_of_hasTable s d.1 d.2 (h d (by simp))]
    exact ih s (fun d' hd' => h d' (by simp [hd']))

theorem createIndex_of_present (s : SchemaState) (i : String)
    (h : s.indexes.any (fun x => x = i) = true) :
    createIndexIfNotExists s i = s := by
  unfold createIndexIfNotExists
  rw [if_pos h]

theorem indexes_any_createIndex_self (s : SchemaState) (i : String) :
    ((createIndexIfNotExists s i).indexes).any (fun x => x = i) = true := by
  unfold createIndexIfNotExists
  by_cases h : s.indexes.any (fun x => x = i) = true
  · rw [if_pos h]; exact h
  · rw [if_neg (by simpa using h)]
    simp

theorem indexes_any_createIndex_mono (s : SchemaState) (i j : String)
    (h : s.indexes.any (fun x => x = i) = true) :
    ((createIndexIfNotExists s j).indexes).any (fun x => x = i) = true := by
  unfold createIndexIfNotExists
  split
  · exact h
  · simp only [List.any_append]
    simp [h]

theorem indexes_any_foldIndexes_mono (l : List String) :
    ∀ (s : SchemaState) (i : String), s.indexes.any (fun x => x = i) = true →
      ((l.foldl createIndexIfNotExists s).indexes).any (fun x => x = i) = true := by
  induction l with
  | nil => intro s i h; exact h
  | cons j rest ih =>
    intro s i h
    simp only [List.foldl_cons]
    exact ih _ i (indexes_any_createIndex_mono s i j h)

theorem indexes_any_foldIndexes_mem (l : List String) :
    ∀ (s : SchemaState) (i : String), i ∈ l →
      ((l.foldl createIndexIfNotExists s).indexes).any (fun x => x = i) = true := by
  induction l with
  | nil => intro s i h; simp at h
  | cons j rest ih =>
    intro s i h
    simp only [List.foldl_cons]
    rcases List.mem_cons.mp h with rfl | h
    · exact indexes_any_foldIndexes_mono rest _ i (indexes_any_createIndex_self s i)
    · exact ih _ i h

theorem foldIndexes_of_all (l : List String) :
    ∀ s : SchemaState, (∀ i ∈ l, s.indexes.any (fun x => x = i) = true) →
      l.foldl createIndexIfNotExists s = s := by
  induction l with
  | nil => intro s _; rfl
  | cons i rest ih =>
    intro s h
    simp only [List.foldl_cons]
    rw [createIndex_of_present s i (h i (by simp))]
    exact ih s (fun i' hi' => h i' (by simp [hi']))

theorem indexes_createTable (s : SchemaState) (n : String) (cols : List String) :
    (createTableIfNotExists s n cols).indexes = s.indexes := by
  unfold createTableIfNotExists
  split <;> rfl

theorem indexes_foldTables (defs : List (String × List String)) :
    ∀ s : SchemaState,
      ((defs.foldl (fun acc t => createTableIfNotExists acc t.1 t.2) s)).indexes
        = s.indexes := by
  induction defs with
  | nil => intro s; rfl
  | cons d rest ih =>
    intro s
    simp only [List.foldl_cons]
    rw [ih, indexes_createTable]

theorem hasColumn_addColumn_self (s : SchemaState) (t c : String)
    (h : hasTable s t = true) : hasColumn (addColumn s t c) t c = true := by
  unfold hasTable at h
  obtain ⟨p, hp, hp1⟩ := List.any_eq_true.mp h
  unfold hasColumn addColumn
  refine List.any_eq_true.mpr ⟨(p.1, p.2 ++ [c]), ?_, ?_⟩
  · refine List.mem_map.mpr ⟨p, hp, ?_⟩
    rw [if_pos (by simpa using hp1)]
  · simp at hp1
    simp [hp1]

theorem hasTable_addColumn (s : SchemaState) (t c n : String) :
    hasTable (addColumn s t c) n = hasTable s n := by
  unfold hasTable addColumn
  simp only [List.any_map]
  refine congrArg s.tables.any ?_
  funext p
  by_cases h : p.1 = t <;> simp [h, Function.comp]

theorem hasTable_run_migrations (s : SchemaState) (n : String) :
    hasTable (run_migrations s) n = hasTable s n := by
  unfold run_migrations
  split
  · rfl
  · rw [hasTable_addColumn]

theorem hasColumn_run_migrations (s : SchemaState)
    (h : hasTable s "protocols" = true) :
    hasColumn (run_migrations s) "protocols" "is_favorite" = true := by
  unfold run_migrations
  by_cases hc : hasColumn s "protocols" "is_favorite" = true
  · rw [if_pos hc]; exact hc
  · rw [if_neg (by simpa using hc)]
    exact hasColumn_addColumn_self s "protocols" "is_favorite" h

theorem indexes_addColumn (s : SchemaState) (t c : String) :
    (addColumn s t c).indexes = s.indexes := rfl

theorem indexes_run_migrations (s : SchemaState) :
    (run_migrations s).indexes = s.indexes := by
  unfold run_migrations
  split <;> rfl

theorem uv_app_createTable (s : SchemaState) (n : String) (cols : List String) :
    (createTableIfNotExists s n cols).user_version = s.user_version
    ∧ (createTableIfNotExists s n cols).application_id = s.application_id := by
  unfold createTableIfNotExists
  split <;> exact ⟨rfl, rfl⟩

theorem uv_app_foldTables (defs : List (String × List String)) :
    ∀ s : SchemaState,
      ((defs.foldl (fun acc t => createTableIfNotExists acc t.1 t.2) s)).user_version
        = s.user_version
      ∧ ((defs.foldl (fun acc t => createTableIfNotExists acc t.1 t.2) s)).application_id
        = s.application_id := by
  induction defs with
  | nil => intro s; exact ⟨rfl, rfl⟩
  | cons d rest ih =>
    intro s
    simp only [List.foldl_cons]
    obtain ⟨h1, h2⟩ := ih (createTableIfNotExists s d.1 d.2)
    obtain ⟨h3, h4⟩ := uv_app_createTable s d.1 d.2
    exact ⟨h1.trans h3, h2.trans h4⟩

theorem uv_app_createIndex (s : SchemaState) (i : String) :
    (createIndexIfNotExists s i).user_version = s.user_version
    ∧ (createIndexIfNotExists s i).application_id = s.application_id := by
  unfold createIndexIfNotExists
  split <;> exact ⟨rfl, rfl⟩

theorem uv_app_foldIndexes (l : List String) :
    ∀ s : SchemaState,
      ((l.foldl createIndexIfNotExists s)).user_version = s.user_version
      ∧ ((l.foldl createIndexIfNotExists s)).application_id = s.application_id := by
  induction l with
  | nil => intro s; exact ⟨rfl, rfl⟩
  | cons i rest ih =>
    intro s
    simp only [List.foldl_cons]
    obtain ⟨h1, h2⟩ := ih (createIndexIfNotExists s i)
    obtain ⟨h3, h4⟩ := uv_app_createIndex s i
    exact ⟨h1.trans h3, h2.trans h4⟩

theorem uv_app_run_migrations (s : SchemaState) :
    (run_migrations s).user_version = s.user_version
    ∧ (run_migrations s).application_id = s.application_id := by
  unfold run_migrations
  split <;> exact ⟨rfl, rfl⟩

theorem uv_app_initializeSchema (s : SchemaState) :
    (initializeSchema s).user_version = SCHEMA_VERSION
    ∧ (initializeSchema s).application_id = PEPTRACK_APP_ID := by
  unfold initializeSchema createSchemaObjects
  obtain ⟨m1, m2⟩ := uv_app_run_migrations
    (indexDefs.foldl createIndexIfNotExists
      (tableDefs.foldl (fun acc t => createTableIfNotExists acc t.1 t.2)
        (openConnectionPragmas s)))
  obtain ⟨i1, i2⟩ := uv_app_foldIndexes indexDefs
    (tableDefs.foldl (fun acc t => createTableIfNotExists acc t.1 t.2)
      (openConnectionPragmas s))
  obtain ⟨t1, t2⟩ := uv_app_foldTables tableDefs (openConnectionPragmas s)
  refine ⟨?_, ?_⟩
  · rw [m1, i1, t1]; rfl
  · rw [m2, i2, t2]; rfl

theorem openConnectionPragmas_of_stamped (s : SchemaState)
    (hu : s.user_version = SCHEMA_VERSION)
    (ha : s.application_id = PEPTRACK_APP_ID) :
    openConnectionPragmas s = s := by
  cases s with
  | mk t i u a =>
    simp only [openConnectionPragmas]
    simp at hu ha
    simp [hu, ha]

/-! ## Claim C8 — schema initialization + migrations are idempotent -/

theorem hasTable_initializeSchema_protocols (s : SchemaState) :
    hasTable (initializeSchema s) "protocols" = true := by
  unfold initializeSchema createSchemaObjects
  rw [hasTable_run_migrations, hasTable_foldIndexes]
  exact hasTable_foldTables_mem tableDefs (openConnectionPragmas s)
    ("protocols", ["id", "name", "payload", "updated_at", "is_favorite"])
    (by simp [tableDefs])

theorem hasColumn_initializeSchema_favorite (s : SchemaState) :
    hasColumn (initializeSchema s) "protocols" "is_favorite" = true := by
  unfold initializeSchema
  refine hasColumn_run_migrations _ ?_
  unfold createSchemaObjects
  rw [hasTable_foldIndexes]
  exact hasTable_foldTables_mem tableDefs (openConnectionPragmas s)
    ("protocols", ["id", "name", "payload", "updated_at", "is_favorite"])
    (by simp [tableDefs])

/-- C8: running schema initialization (table/index creation plus the
ordered migrations) twice on the same file is a no-op the second time:
the resulting state, and in particular the stamped schema version, are
unchanged, and the second run's `is_favorite` migration finds the column
already present, so it performs no `ALTER`. -/
theorem schema_init_idempotent (s : SchemaState) :
    initializeSchema (initializeSchema s) = initializeSchema s
    ∧ (initializeSchema (initializeSchema s)).user_version
      = (initializeSchema s).user_version
    ∧ hasColumn (initializeSchema s) "protocols" "is_favorite" = true := by
  obtain ⟨huv, happ⟩ := uv_app_initializeSchema s
  have htables : ∀ d ∈ tableDefs, hasTable (initializeSchema s) d.1 = true := by
    intro d hd
    unfold initializeSchema createSchemaObjects
    rw [hasTable_run_migrations, hasTable_foldIndexes]
    exact hasTable_foldTables_mem tableDefs (openConnectionPragmas s) d hd
  have hindexes : ∀ i ∈ indexDefs,
      ((initializeSchema s).indexes).any (fun x => x = i) = true := by
    intro i hi
    unfold initializeSchema createSchemaObjects
    rw [indexes_run_migrations]
    exact indexes_any_foldIndexes_mem indexDefs _ i hi
  have hfixed : initializeSchema (initializeSchema s) = initializeSchema s := by
    show run_migrations (createSchemaObjects
      (openConnectionPragmas (initializeSchema s))) = initializeSchema s
    rw [openConnectionPragmas_of_stamped _ huv happ]
    unfold createSchemaObjects
    rw [foldTables_of_all tableDefs _ htables]
    rw [foldIndexes_of_all indexDefs _ hindexes]
    unfold run_migrations
    rw [if_pos (hasColumn_initializeSchema_favorite s)]
  exact ⟨hfixed, by rw [hfixed], hasColumn_initializeSchema_favorite s⟩

end PepTrack
